import Mathlib

/-!
Shallow embedding of `cache_simulator.py`: a multi-core cache simulator with
two modes, an uncoordinated mode (`protocol = "none"`) and a MESI coherence
mode (any other protocol string routes to the MESI path; the program uses
`"MESI"`).

Python dictionaries are modelled as total functions into `Option` together
with an explicit key list where the program iterates over or tests membership
in the dictionary itself:
  * `self.caches` (dict thread_id -> dict addr -> value) becomes the key list
    `cacheDom` plus the total map `caches`;
  * `self.coherence_states` (dict thread_id -> defaultdict addr -> state)
    becomes the key list `stateDom` plus the total map `coherence_states`
    (`none` = the inner dict has no entry for that address, which the
    defaultdict reads as `'I'`);
  * `self.shared_memory` becomes `shared_memory`.
`random.randint` is modelled as an injectable value stream `gen : Nat → Nat`
consumed at index `rng`, which increments on every draw.  A raised `KeyError`
(unregistered thread id, or missing coherence table) is modelled by the
access returning `none`; the code after those two lookups cannot fail, so it
is factored into total "body" functions guarded by the two membership tests.
-/

/-- MESI coherence line states, the strings `'M'`, `'E'`, `'S'`, `'I'` of the
program. -/
inductive MState where
  | M
  | E
  | S
  | I
  deriving DecidableEq, Repr

/-- State of one simulator instance (`CacheSimulator.__init__`). -/
structure CacheSimulator where
  protocol : String
  cacheDom : List Nat
  caches : Nat → Nat → Option Nat
  shared_memory : Nat → Option Nat
  cache_misses : Nat
  coherence_messages : Nat
  memory_accesses : Nat
  stateDom : List Nat
  coherence_states : Nat → Nat → Option MState
  rng : Nat

/-- Fresh engine: `CacheSimulator(protocol)`. -/
def CacheSimulator.new (protocol : String) : CacheSimulator where
  protocol := protocol
  cacheDom := []
  caches := fun _ _ => none
  shared_memory := fun _ => none
  cache_misses := 0
  coherence_messages := 0
  memory_accesses := 0
  stateDom := []
  coherence_states := fun _ _ => none
  rng := 0

/-- `init_thread_cache`: give `tid` a fresh empty cache (registering it), and
in MESI mode a fresh empty coherence table. -/
def init_thread_cache (s : CacheSimulator) (tid : Nat) : CacheSimulator :=
  { s with
    cacheDom := if tid ∈ s.cacheDom then s.cacheDom else s.cacheDom ++ [tid],
    caches := fun t a => if t = tid then none else s.caches t a,
    stateDom :=
      if s.protocol = "MESI" then
        if tid ∈ s.stateDom then s.stateDom else s.stateDom ++ [tid]
      else s.stateDom,
    coherence_states :=
      if s.protocol = "MESI" then
        fun t a => if t = tid then none else s.coherence_states t a
      else s.coherence_states }

/-- Observed coherence state of `(tid, addr)`: the defaultdict read
`self.coherence_states[tid][addr]`, defaulting to `'I'`. -/
def stateOf (s : CacheSimulator) (tid addr : Nat) : MState :=
  (s.coherence_states tid addr).getD MState.I

/-- Point update `self.coherence_states[tid][addr] = v`. -/
def setStateAt (cs : Nat → Nat → Option MState) (tid addr : Nat) (v : MState) :
    Nat → Nat → Option MState :=
  fun t a => if t = tid ∧ a = addr then some v else cs t a

/-- The read-miss snoop loop (lines 58-60): for each `tid` in the caches dict,
if its coherence table has an entry for `addr`, set that entry to `'S'`. -/
def setSharedAll (regs : List Nat) (addr : Nat)
    (cs : Nat → Nat → Option MState) : Nat → Nat → Option MState :=
  match regs with
  | [] => cs
  | r :: rs =>
      setSharedAll rs addr
        (if (cs r addr).isSome then setStateAt cs r addr MState.S else cs)

/-- The invalidation loop (lines 67-69 and 78-80): for each `tid ≠ me` in the
caches dict with a coherence-table entry for `addr`, set it to `'I'`. -/
def invalidateOthers (regs : List Nat) (me addr : Nat)
    (cs : Nat → Nat → Option MState) : Nat → Nat → Option MState :=
  match regs with
  | [] => cs
  | r :: rs =>
      invalidateOthers rs me addr
        (if r ≠ me ∧ (cs r addr).isSome then setStateAt cs r addr MState.I else cs)

/-- Line 53: `any(address in c for tid, c in self.caches.items() if tid != thread_id)`. -/
def otherHasCopy (regs : List Nat) (caches : Nat → Nat → Option Nat)
    (me addr : Nat) : Bool :=
  regs.any fun t => !(t == me) && (caches t addr).isSome

/-- The defaultdict side effect of line 50: reading
`self.coherence_states[thread_id][address]` creates an `'I'` entry when none
exists (and rewrites the present entry with its own value otherwise). -/
def materialize (s : CacheSimulator) (tid addr : Nat) : CacheSimulator :=
  { s with
    coherence_states := fun t a =>
      if t = tid ∧ a = addr then some (stateOf s tid addr) else s.coherence_states t a }

/-- Miss block of `access_with_mesi` (lines 52-72): bump the miss counter,
default the shared store, run the read or write snoop branch, and fill the
requester's cache line from the shared store. -/
def mesiMiss (s : CacheSimulator) (tid addr : Nat) (ty : String) : CacheSimulator :=
  let ohc := otherHasCopy s.cacheDom s.caches tid addr
  let sh : Nat → Option Nat :=
    fun a => if a = addr then some ((s.shared_memory addr).getD 0) else s.shared_memory a
  let cs :=
    if ty = "read" then
      if ohc then
        setStateAt (setSharedAll s.cacheDom addr s.coherence_states) tid addr MState.S
      else
        setStateAt s.coherence_states tid addr MState.E
    else
      setStateAt (invalidateOthers s.cacheDom tid addr s.coherence_states) tid addr MState.M
  let msgs := if ty = "read" then (if ohc then 2 else 1) else 2
  { s with
    cache_misses := s.cache_misses + 1,
    shared_memory := sh,
    coherence_states := cs,
    coherence_messages := s.coherence_messages + msgs,
    caches := fun t a => if t = tid ∧ a = addr then sh addr else s.caches t a }

/-- Shared-write-hit block of `access_with_mesi` (lines 76-81): promote the
requester to `'M'`, invalidate every other core with a table entry, charge one
coherence message. -/
def mesiUpgrade (s : CacheSimulator) (tid addr : Nat) : CacheSimulator :=
  { s with
    coherence_states :=
      invalidateOthers s.cacheDom tid addr (setStateAt s.coherence_states tid addr MState.M),
    coherence_messages := s.coherence_messages + 1 }

/-- Write-through tail shared by both modes (lines 43-46 and 82-85): draw a
fresh value, store it in the requester's cache and the shared store, return it. -/
def doWrite (gen : Nat → Nat) (s : CacheSimulator) (tid addr : Nat) :
    Nat × CacheSimulator :=
  let v := gen s.rng
  (v,
    { s with
      caches := fun t a => if t = tid ∧ a = addr then some v else s.caches t a,
      shared_memory := fun a => if a = addr then some v else s.shared_memory a,
      rng := s.rng + 1 })

/-- Miss block of `access_without_coherence` (lines 35-39). -/
def noCohMiss (s : CacheSimulator) (tid addr : Nat) : CacheSimulator :=
  let sh : Nat → Option Nat :=
    fun a => if a = addr then some ((s.shared_memory addr).getD 0) else s.shared_memory a
  { s with
    cache_misses := s.cache_misses + 1,
    shared_memory := sh,
    caches := fun t a => if t = tid ∧ a = addr then sh addr else s.caches t a }

/-- Body of `access_without_coherence` after the `self.caches[thread_id]`
lookup succeeded (lines 35-46). -/
def noCohBody (gen : Nat → Nat) (s : CacheSimulator) (tid addr : Nat) (ty : String) :
    Nat × CacheSimulator :=
  let s1 := if (s.caches tid addr).isNone then noCohMiss s tid addr else s
  if ty = "read" then ((s1.caches tid addr).getD 0, s1)
  else doWrite gen s1 tid addr

/-- `access_without_coherence` (lines 33-46).  `none` models the `KeyError`
raised by `self.caches[thread_id]` for an unregistered core. -/
def access_without_coherence (gen : Nat → Nat) (s : CacheSimulator)
    (tid addr : Nat) (ty : String) : Option (Nat × CacheSimulator) :=
  if tid ∈ s.cacheDom then some (noCohBody gen s tid addr ty) else none

/-- Body of `access_with_mesi` after the line-49/50 lookups succeeded
(lines 50-85): the defaultdict read of the requester's state, the miss block
when the line is absent or Invalid, and the read/write resolution. -/
def mesiBody (gen : Nat → Nat) (s : CacheSimulator) (tid addr : Nat) (ty : String) :
    Nat × CacheSimulator :=
  let st := stateOf s tid addr
  let s0 := materialize s tid addr
  let s1 :=
    if (s0.caches tid addr).isNone ∨ st = MState.I then mesiMiss s0 tid addr ty
    else s0
  if ty = "read" then ((s1.caches tid addr).getD 0, s1)
  else doWrite gen (if st = MState.S then mesiUpgrade s1 tid addr else s1) tid addr

/-- `access_with_mesi` (lines 48-85).  `none` models the `KeyError` raised by
`self.caches[thread_id]` (line 49) or `self.coherence_states[thread_id]`
(line 50). -/
def access_with_mesi (gen : Nat → Nat) (s : CacheSimulator)
    (tid addr : Nat) (ty : String) : Option (Nat × CacheSimulator) :=
  if tid ∈ s.cacheDom then
    if tid ∈ s.stateDom then some (mesiBody gen s tid addr ty) else none
  else none

/-- Line 27: `self.metrics['memory_accesses'] += 1`. -/
def bumpAccess (s : CacheSimulator) : CacheSimulator :=
  { s with memory_accesses := s.memory_accesses + 1 }

/-- `access_memory` (lines 25-31): bump the access counter and dispatch on the
protocol (`"none"` goes to the uncoordinated path, everything else to MESI). -/
def access_memory (gen : Nat → Nat) (s : CacheSimulator)
    (tid addr : Nat) (ty : String) : Option (Nat × CacheSimulator) :=
  let s0 := bumpAccess s
  if s0.protocol = "none" then access_without_coherence gen s0 tid addr ty
  else access_with_mesi gen s0 tid addr ty

/-- One driver-visible operation on the engine: register a core
(`init_thread_cache`) or perform a memory access (`access_memory`). -/
inductive SimOp where
  | reg (tid : Nat)
  | acc (tid addr : Nat) (ty : String)

/-- Apply one operation; an access that raises yields `none`. -/
def applyOp (gen : Nat → Nat) (s : CacheSimulator) : SimOp → Option CacheSimulator
  | SimOp.reg tid => some (init_thread_cache s tid)
  | SimOp.acc tid addr ty => (access_memory gen s tid addr ty).map Prod.snd

/-- Run a sequence of operations, failing if any operation raises. -/
def runOps (gen : Nat → Nat) (s : CacheSimulator) : List SimOp → Option CacheSimulator
  | [] => some s
  | op :: ops =>
      match applyOp gen s op with
      | none => none
      | some s1 => runOps gen s1 ops

/-! ### Pointwise characterizations of the loops -/

theorem setStateAt_eval (cs : Nat → Nat → Option MState) (tid addr : Nat)
    (v : MState) (t a : Nat) :
    setStateAt cs tid addr v t a = if t = tid ∧ a = addr then some v else cs t a := rfl

theorem setSharedAll_eval (regs : List Nat) (addr : Nat)
    (cs : Nat → Nat → Option MState) (t a : Nat) :
    setSharedAll regs addr cs t a =
      if t ∈ regs ∧ a = addr ∧ (cs t a).isSome then some MState.S else cs t a := by
  induction regs generalizing cs with
  | nil => simp [setSharedAll]
  | cons r rs ih =>
    rw [setSharedAll, ih]
    simp only [List.mem_cons]
    by_cases hr : (cs r addr).isSome <;> by_cases ht : t = r <;>
      by_cases ha : a = addr <;> by_cases hm : t ∈ rs <;> simp_all [setStateAt]

theorem invalidateOthers_eval (regs : List Nat) (me addr : Nat)
    (cs : Nat → Nat → Option MState) (t a : Nat) :
    invalidateOthers regs me addr cs t a =
      if t ∈ regs ∧ t ≠ me ∧ a = addr ∧ (cs t a).isSome then some MState.I
      else cs t a := by
  induction regs generalizing cs with
  | nil => simp [invalidateOthers]
  | cons r rs ih =>
    rw [invalidateOthers, ih]
    simp only [List.mem_cons]
    by_cases hr : (cs r addr).isSome <;> by_cases hrm : r = me <;> by_cases ht : t = r <;>
      by_cases ha : a = addr <;> by_cases hm : t ∈ rs <;> simp_all [setStateAt]

theorem otherHasCopy_true_iff (regs : List Nat) (caches : Nat → Nat → Option Nat)
    (me addr : Nat) :
    otherHasCopy regs caches me addr = true ↔
      ∃ t, t ∈ regs ∧ t ≠ me ∧ (caches t addr).isSome := by
  simp [otherHasCopy, List.any_eq_true, and_assoc]

/-! ### Field lemmas for the composite blocks -/

@[simp] theorem bumpAccess_protocol (s : CacheSimulator) : (bumpAccess s).protocol = s.protocol := rfl

@[simp] theorem bumpAccess_cacheDom (s : CacheSimulator) : (bumpAccess s).cacheDom = s.cacheDom := rfl

@[simp] theorem bumpAccess_caches (s : CacheSimulator) : (bumpAccess s).caches = s.caches := rfl

@[simp] theorem bumpAccess_shared (s : CacheSimulator) : (bumpAccess s).shared_memory = s.shared_memory := rfl

@[simp] theorem bumpAccess_misses (s : CacheSimulator) : (bumpAccess s).cache_misses = s.cache_misses := rfl

@[simp] theorem bumpAccess_msgs (s : CacheSimulator) : (bumpAccess s).coherence_messages = s.coherence_messages := rfl

@[simp] theorem bumpAccess_accesses (s : CacheSimulator) : (bumpAccess s).memory_accesses = s.memory_accesses + 1 := rfl

@[simp] theorem bumpAccess_stateDom (s : CacheSimulator) : (bumpAccess s).stateDom = s.stateDom := rfl

@[simp] theorem bumpAccess_states (s : CacheSimulator) : (bumpAccess s).coherence_states = s.coherence_states := rfl

@[simp] theorem bumpAccess_rng (s : CacheSimulator) : (bumpAccess s).rng = s.rng := rfl

@[simp] theorem stateOf_bumpAccess (s : CacheSimulator) (t a : Nat) :
    stateOf (bumpAccess s) t a = stateOf s t a := rfl

@[simp] theorem materialize_protocol (s : CacheSimulator) (tid addr : Nat) :
    (materialize s tid addr).protocol = s.protocol := rfl

@[simp] theorem materialize_cacheDom (s : CacheSimulator) (tid addr : Nat) :
    (materialize s tid addr).cacheDom = s.cacheDom := rfl

@[simp] theorem materialize_stateDom (s : CacheSimulator) (tid addr : Nat) :
    (materialize s tid addr).stateDom = s.stateDom := rfl

@[simp] theorem materialize_caches (s : CacheSimulator) (tid addr : Nat) :
    (materialize s tid addr).caches = s.caches := rfl

@[simp] theorem materialize_shared (s : CacheSimulator) (tid addr : Nat) :
    (materialize s tid addr).shared_memory = s.shared_memory := rfl

@[simp] theorem materialize_misses (s : CacheSimulator) (tid addr : Nat) :
    (materialize s tid addr).cache_misses = s.cache_misses := rfl

@[simp] theorem materialize_msgs (s : CacheSimulator) (tid addr : Nat) :
    (materialize s tid addr).coherence_messages = s.coherence_messages := rfl

@[simp] theorem materialize_accesses (s : CacheSimulator) (tid addr : Nat) :
    (materialize s tid addr).memory_accesses = s.memory_accesses := rfl

@[simp] theorem materialize_rng (s : CacheSimulator) (tid addr : Nat) :
    (materialize s tid addr).rng = s.rng := rfl

@[simp] theorem stateOf_materialize (s : CacheSimulator) (tid addr t a : Nat) :
    stateOf (materialize s tid addr) t a = stateOf s t a := by
  unfold stateOf materialize
  by_cases h : t = tid ∧ a = addr
  · obtain ⟨h1, h2⟩ := h
    subst h1; subst h2
    simp [stateOf]
  · simp [h]

theorem materialize_states_isSome (s : CacheSimulator) (tid addr t a : Nat) :
    ((materialize s tid addr).coherence_states t a).isSome ↔
      ((s.coherence_states t a).isSome ∨ (t = tid ∧ a = addr)) := by
  unfold materialize
  by_cases h : t = tid ∧ a = addr <;> simp [h]

@[simp] theorem mesiMiss_protocol (s : CacheSimulator) (tid addr : Nat) (ty : String) :
    (mesiMiss s tid addr ty).protocol = s.protocol := rfl

@[simp] theorem mesiMiss_cacheDom (s : CacheSimulator) (tid addr : Nat) (ty : String) :
    (mesiMiss s tid addr ty).cacheDom = s.cacheDom := rfl

@[simp] theorem mesiMiss_stateDom (s : CacheSimulator) (tid addr : Nat) (ty : String) :
    (mesiMiss s tid addr ty).stateDom = s.stateDom := rfl

@[simp] theorem mesiMiss_misses (s : CacheSimulator) (tid addr : Nat) (ty : String) :
    (mesiMiss s tid addr ty).cache_misses = s.cache_misses + 1 := rfl

@[simp] theorem mesiMiss_accesses (s : CacheSimulator) (tid addr : Nat) (ty : String) :
    (mesiMiss s tid addr ty).memory_accesses = s.memory_accesses := rfl

@[simp] theorem mesiMiss_rng (s : CacheSimulator) (tid addr : Nat) (ty : String) :
    (mesiMiss s tid addr ty).rng = s.rng := rfl

theorem mesiMiss_shared (s : CacheSimulator) (tid addr : Nat) (ty : String) (a : Nat) :
    (mesiMiss s tid addr ty).shared_memory a =
      if a = addr then some ((s.shared_memory addr).getD 0) else s.shared_memory a := rfl

theorem mesiMiss_caches (s : CacheSimulator) (tid addr : Nat) (ty : String) (t a : Nat) :
    (mesiMiss s tid addr ty).caches t a =
      if t = tid ∧ a = addr then some ((s.shared_memory addr).getD 0)
      else s.caches t a := by
  show (if t = tid ∧ a = addr
          then (if addr = addr then some ((s.shared_memory addr).getD 0) else s.shared_memory addr)
          else s.caches t a) = _
  simp

theorem mesiMiss_msgs (s : CacheSimulator) (tid addr : Nat) (ty : String) :
    (mesiMiss s tid addr ty).coherence_messages =
      s.coherence_messages +
        (if ty = "read" then (if otherHasCopy s.cacheDom s.caches tid addr then 2 else 1)
         else 2) := rfl

theorem mesiMiss_states_def (s : CacheSimulator) (tid addr : Nat) (ty : String) :
    (mesiMiss s tid addr ty).coherence_states =
      if ty = "read" then
        if otherHasCopy s.cacheDom s.caches tid addr then
          setStateAt (setSharedAll s.cacheDom addr s.coherence_states) tid addr MState.S
        else setStateAt s.coherence_states tid addr MState.E
      else
        setStateAt (invalidateOthers s.cacheDom tid addr s.coherence_states) tid addr
          MState.M := rfl

theorem mesiMiss_states_isSome (s : CacheSimulator) (tid addr : Nat) (ty : String) (t a : Nat) :
    ((mesiMiss s tid addr ty).coherence_states t a).isSome ↔
      ((s.coherence_states t a).isSome ∨ (t = tid ∧ a = addr)) := by
  rw [mesiMiss_states_def]
  by_cases hty : ty = "read" <;>
    by_cases hohc : otherHasCopy s.cacheDom s.caches tid addr <;>
      simp only [hty, hohc, if_true, if_false, Bool.false_eq_true, reduceIte,
        setStateAt, setSharedAll_eval, invalidateOthers_eval] <;>
        split_ifs <;> aesop

theorem stateOf_mesiMiss_read_ohc (s : CacheSimulator) (tid addr t a : Nat)
    (hohc : otherHasCopy s.cacheDom s.caches tid addr = true) :
    stateOf (mesiMiss s tid addr "read") t a =
      if t = tid ∧ a = addr then MState.S
      else if t ∈ s.cacheDom ∧ a = addr ∧ (s.coherence_states t a).isSome then MState.S
      else stateOf s t a := by
  unfold stateOf
  rw [mesiMiss_states_def]
  simp only [hohc, if_true, reduceIte, setStateAt, setSharedAll_eval]
  split_ifs <;> aesop

theorem stateOf_mesiMiss_read_noohc (s : CacheSimulator) (tid addr t a : Nat)
    (hohc : otherHasCopy s.cacheDom s.caches tid addr = false) :
    stateOf (mesiMiss s tid addr "read") t a =
      if t = tid ∧ a = addr then MState.E else stateOf s t a := by
  unfold stateOf
  rw [mesiMiss_states_def]
  simp only [hohc, Bool.false_eq_true, if_false, reduceIte, setStateAt]
  split_ifs <;> aesop

theorem stateOf_mesiMiss_write (s : CacheSimulator) (tid addr t a : Nat) (ty : String)
    (hty : ty ≠ "read") :
    stateOf (mesiMiss s tid addr ty) t a =
      if t = tid ∧ a = addr then MState.M
      else if t ∈ s.cacheDom ∧ t ≠ tid ∧ a = addr ∧ (s.coherence_states t a).isSome then MState.I
      else stateOf s t a := by
  unfold stateOf
  rw [mesiMiss_states_def]
  simp only [hty, if_false, setStateAt, invalidateOthers_eval]
  split_ifs <;> aesop

@[simp] theorem mesiUpgrade_protocol (s : CacheSimulator) (tid addr : Nat) :
    (mesiUpgrade s tid addr).protocol = s.protocol := rfl

@[simp] theorem mesiUpgrade_cacheDom (s : CacheSimulator) (tid addr : Nat) :
    (mesiUpgrade s tid addr).cacheDom = s.cacheDom := rfl

@[simp] theorem mesiUpgrade_stateDom (s : CacheSimulator) (tid addr : Nat) :
    (mesiUpgrade s tid addr).stateDom = s.stateDom := rfl

@[simp] theorem mesiUpgrade_caches (s : CacheSimulator) (tid addr : Nat) :
    (mesiUpgrade s tid addr).caches = s.caches := rfl

@[simp] theorem mesiUpgrade_shared (s : CacheSimulator) (tid addr : Nat) :
    (mesiUpgrade s tid addr).shared_memory = s.shared_memory := rfl

@[simp] theorem mesiUpgrade_misses (s : CacheSimulator) (tid addr : Nat) :
    (mesiUpgrade s tid addr).cache_misses = s.cache_misses := rfl

@[simp] theorem mesiUpgrade_msgs (s : CacheSimulator) (tid addr : Nat) :
    (mesiUpgrade s tid addr).coherence_messages = s.coherence_messages + 1 := rfl

@[simp] theorem mesiUpgrade_accesses (s : CacheSimulator) (tid addr : Nat) :
    (mesiUpgrade s tid addr).memory_accesses = s.memory_accesses := rfl

@[simp] theorem mesiUpgrade_rng (s : CacheSimulator) (tid addr : Nat) :
    (mesiUpgrade s tid addr).rng = s.rng := rfl

theorem stateOf_mesiUpgrade (s : CacheSimulator) (tid addr t a : Nat) :
    stateOf (mesiUpgrade s tid addr) t a =
      if t = tid ∧ a = addr then MState.M
      else if t ∈ s.cacheDom ∧ t ≠ tid ∧ a = addr ∧ (s.coherence_states t a).isSome then MState.I
      else stateOf s t a := by
  unfold stateOf mesiUpgrade
  simp only [invalidateOthers_eval, setStateAt]
  split_ifs <;> aesop

theorem mesiUpgrade_states_isSome (s : CacheSimulator) (tid addr t a : Nat) :
    ((mesiUpgrade s tid addr).coherence_states t a).isSome ↔
      ((s.coherence_states t a).isSome ∨ (t = tid ∧ a = addr)) := by
  unfold mesiUpgrade
  simp only [invalidateOthers_eval, setStateAt]
  split_ifs <;> aesop

@[simp] theorem doWrite_fst (gen : Nat → Nat) (s : CacheSimulator) (tid addr : Nat) :
    (doWrite gen s tid addr).1 = gen s.rng := rfl

@[simp] theorem doWrite_protocol (gen : Nat → Nat) (s : CacheSimulator) (tid addr : Nat) :
    (doWrite gen s tid addr).2.protocol = s.protocol := rfl

@[simp] theorem doWrite_cacheDom (gen : Nat → Nat) (s : CacheSimulator) (tid addr : Nat) :
    (doWrite gen s tid addr).2.cacheDom = s.cacheDom := rfl

@[simp] theorem doWrite_stateDom (gen : Nat → Nat) (s : CacheSimulator) (tid addr : Nat) :
    (doWrite gen s tid addr).2.stateDom = s.stateDom := rfl

@[simp] theorem doWrite_states (gen : Nat → Nat) (s : CacheSimulator) (tid addr : Nat) :
    (doWrite gen s tid addr).2.coherence_states = s.coherence_states := rfl

@[simp] theorem stateOf_doWrite (gen : Nat → Nat) (s : CacheSimulator) (tid addr t a : Nat) :
    stateOf (doWrite gen s tid addr).2 t a = stateOf s t a := rfl

@[simp] theorem doWrite_misses (gen : Nat → Nat) (s : CacheSimulator) (tid addr : Nat) :
    (doWrite gen s tid addr).2.cache_misses = s.cache_misses := rfl

@[simp] theorem doWrite_msgs (gen : Nat → Nat) (s : CacheSimulator) (tid addr : Nat) :
    (doWrite gen s tid addr).2.coherence_messages = s.coherence_messages := rfl

@[simp] theorem doWrite_accesses (gen : Nat → Nat) (s : CacheSimulator) (tid addr : Nat) :
    (doWrite gen s tid addr).2.memory_accesses = s.memory_accesses := rfl

@[simp] theorem doWrite_rng (gen : Nat → Nat) (s : CacheSimulator) (tid addr : Nat) :
    (doWrite gen s tid addr).2.rng = s.rng + 1 := rfl

theorem doWrite_caches (gen : Nat → Nat) (s : CacheSimulator) (tid addr t a : Nat) :
    (doWrite gen s tid addr).2.caches t a =
      if t = tid ∧ a = addr then some (gen s.rng) else s.caches t a := rfl

theorem doWrite_shared (gen : Nat → Nat) (s : CacheSimulator) (tid addr a : Nat) :
    (doWrite gen s tid addr).2.shared_memory a =
      if a = addr then some (gen s.rng) else s.shared_memory a := rfl

@[simp] theorem noCohMiss_protocol (s : CacheSimulator) (tid addr : Nat) :
    (noCohMiss s tid addr).protocol = s.protocol := rfl

@[simp] theorem noCohMiss_cacheDom (s : CacheSimulator) (tid addr : Nat) :
    (noCohMiss s tid addr).cacheDom = s.cacheDom := rfl

@[simp] theorem noCohMiss_stateDom (s : CacheSimulator) (tid addr : Nat) :
    (noCohMiss s tid addr).stateDom = s.stateDom := rfl

@[simp] theorem noCohMiss_misses (s : CacheSimulator) (tid addr : Nat) :
    (noCohMiss s tid addr).cache_misses = s.cache_misses + 1 := rfl

@[simp] theorem noCohMiss_msgs (s : CacheSimulator) (tid addr : Nat) :
    (noCohMiss s tid addr).coherence_messages = s.coherence_messages := rfl

@[simp] theorem noCohMiss_accesses (s : CacheSimulator) (tid addr : Nat) :
    (noCohMiss s tid addr).memory_accesses = s.memory_accesses := rfl

@[simp] theorem noCohMiss_states (s : CacheSimulator) (tid addr : Nat) :
    (noCohMiss s tid addr).coherence_states = s.coherence_states := rfl

@[simp] theorem noCohMiss_rng (s : CacheSimulator) (tid addr : Nat) :
    (noCohMiss s tid addr).rng = s.rng := rfl

theorem noCohMiss_caches (s : CacheSimulator) (tid addr t a : Nat) :
    (noCohMiss s tid addr).caches t a =
      if t = tid ∧ a = addr then some ((s.shared_memory addr).getD 0)
      else s.caches t a := by
  show (if t = tid ∧ a = addr
          then (if addr = addr then some ((s.shared_memory addr).getD 0) else s.shared_memory addr)
          else s.caches t a) = _
  simp

theorem noCohMiss_shared (s : CacheSimulator) (tid addr : Nat) (a : Nat) :
    (noCohMiss s tid addr).shared_memory a =
      if a = addr then some ((s.shared_memory addr).getD 0) else s.shared_memory a := rfl

/-! ### The MESI coherence invariant -/

/-- In MESI mode `init_thread_cache` registers a core in `self.caches` and
`self.coherence_states` together, so the two key sets agree. -/
def DomsAgree (s : CacheSimulator) : Prop :=
  ∀ t, t ∈ s.cacheDom ↔ t ∈ s.stateDom

/-- Unregistered cores own no cache lines and no coherence-table entries. -/
def UnregisteredEmpty (s : CacheSimulator) : Prop :=
  ∀ t, t ∉ s.cacheDom → ∀ a, s.coherence_states t a = none ∧ s.caches t a = none

/-- A core has a coherence-table entry for an address exactly when its cache
holds that address (both are created together on a core's first access and
neither is ever deleted). -/
def EntriesMatchCaches (s : CacheSimulator) : Prop :=
  ∀ t a, (s.coherence_states t a).isSome ↔ (s.caches t a).isSome

/-- If any core holds `M` or `E` for an address, every other core observes
`I` there. -/
def ExclusiveOwner (s : CacheSimulator) : Prop :=
  ∀ a t1 t2, t1 ≠ t2 →
    (stateOf s t1 a = MState.M ∨ stateOf s t1 a = MState.E) →
    stateOf s t2 a = MState.I

/-- The inductive invariant of the coherent-mode engine. -/
def MesiInv (s : CacheSimulator) : Prop :=
  s.protocol = "MESI" ∧ DomsAgree s ∧ UnregisteredEmpty s ∧ EntriesMatchCaches s ∧
    ExclusiveOwner s

theorem isSome_of_stateOf_ne_I (s : CacheSimulator) (t a : Nat)
    (h : stateOf s t a ≠ MState.I) : (s.coherence_states t a).isSome := by
  unfold stateOf at h
  cases hcs : s.coherence_states t a <;> simp_all

theorem stateOf_eq_I_of_none (s : CacheSimulator) (t a : Nat)
    (h : s.coherence_states t a = none) : stateOf s t a = MState.I := by
  simp [stateOf, h]

theorem allOthersInvalid_of_noCopy (s : CacheSimulator) (tid addr : Nat)
    (hu : UnregisteredEmpty s) (he : EntriesMatchCaches s)
    (hohc : otherHasCopy s.cacheDom s.caches tid addr = false) :
    ∀ t, t ≠ tid → stateOf s t addr = MState.I := by
  intro t ht
  by_cases hm : t ∈ s.cacheDom
  · have hnc : ¬(s.caches t addr).isSome := by
      intro hsome
      have : otherHasCopy s.cacheDom s.caches tid addr = true :=
        (otherHasCopy_true_iff s.cacheDom s.caches tid addr).mpr ⟨t, hm, ht, hsome⟩
      simp_all
    have hent : s.coherence_states t addr = none := by
      by_contra hne
      exact hnc ((he t addr).mp (Option.isSome_iff_ne_none.mpr hne))
    exact stateOf_eq_I_of_none s t addr hent
  · exact stateOf_eq_I_of_none s t addr (hu t hm addr).1

theorem miss_not_S (s : CacheSimulator) (tid addr : Nat)
    (he : EntriesMatchCaches s)
    (hmiss : (s.caches tid addr).isNone ∨ stateOf s tid addr = MState.I) :
    stateOf s tid addr ≠ MState.S := by
  intro hS
  rcases hmiss with h | h
  · have h1 : (s.coherence_states tid addr).isSome :=
      isSome_of_stateOf_ne_I s tid addr (by rw [hS]; intro hc; cases hc)
    have h2 : (s.caches tid addr).isSome := (he tid addr).mp h1
    simp_all [Option.isNone_iff_eq_none]
  · rw [h] at hS
    cases hS

/-! ### Branch selection for `mesiBody` -/

theorem mesiBody_miss_read (gen : Nat → Nat) (s : CacheSimulator) (tid addr : Nat)
    (hmiss : (s.caches tid addr).isNone ∨ stateOf s tid addr = MState.I) :
    mesiBody gen s tid addr "read" =
      (((mesiMiss (materialize s tid addr) tid addr "read").caches tid addr).getD 0,
        mesiMiss (materialize s tid addr) tid addr "read") := by
  simp only [mesiBody, materialize_caches]
  rw [if_pos hmiss]
  simp

theorem mesiBody_hit_read (gen : Nat → Nat) (s : CacheSimulator) (tid addr : Nat)
    (hmiss : ¬((s.caches tid addr).isNone ∨ stateOf s tid addr = MState.I)) :
    mesiBody gen s tid addr "read" = ((s.caches tid addr).getD 0, materialize s tid addr) := by
  simp only [mesiBody, materialize_caches]
  rw [if_neg hmiss]
  simp

theorem mesiBody_miss_write (gen : Nat → Nat) (s : CacheSimulator) (tid addr : Nat)
    (ty : String) (hty : ty ≠ "read")
    (hmiss : (s.caches tid addr).isNone ∨ stateOf s tid addr = MState.I)
    (hnotS : stateOf s tid addr ≠ MState.S) :
    mesiBody gen s tid addr ty =
      doWrite gen (mesiMiss (materialize s tid addr) tid addr ty) tid addr := by
  simp only [mesiBody, materialize_caches]
  rw [if_pos hmiss, if_neg hty, if_neg hnotS]

theorem mesiBody_hit_write_S (gen : Nat → Nat) (s : CacheSimulator) (tid addr : Nat)
    (ty : String) (hty : ty ≠ "read")
    (hmiss : ¬((s.caches tid addr).isNone ∨ stateOf s tid addr = MState.I))
    (hS : stateOf s tid addr = MState.S) :
    mesiBody gen s tid addr ty =
      doWrite gen (mesiUpgrade (materialize s tid addr) tid addr) tid addr := by
  simp only [mesiBody, materialize_caches]
  rw [if_neg hmiss, if_neg hty, if_pos hS]

theorem mesiBody_hit_write_own (gen : Nat → Nat) (s : CacheSimulator) (tid addr : Nat)
    (ty : String) (hty : ty ≠ "read")
    (hmiss : ¬((s.caches tid addr).isNone ∨ stateOf s tid addr = MState.I))
    (hnotS : stateOf s tid addr ≠ MState.S) :
    mesiBody gen s tid addr ty = doWrite gen (materialize s tid addr) tid addr := by
  simp only [mesiBody, materialize_caches]
  rw [if_neg hmiss, if_neg hty, if_neg hnotS]

/-! ### Preservation of the invariant, branch by branch -/

theorem materialize_states_eq_of_ne (s : CacheSimulator) (tid addr t a : Nat)
    (h : ¬(t = tid ∧ a = addr)) :
    (materialize s tid addr).coherence_states t a = s.coherence_states t a := by
  simp [materialize, h]

theorem mesiInv_miss_read (s : CacheSimulator) (tid addr : Nat)
    (htid : tid ∈ s.cacheDom)
    (hp : s.protocol = "MESI") (hd : DomsAgree s) (hu : UnregisteredEmpty s)
    (he : EntriesMatchCaches s) (hx : ExclusiveOwner s) :
    MesiInv (mesiMiss (materialize s tid addr) tid addr "read") := by
  refine ⟨by simpa using hp, fun t => by simpa using hd t, ?_, ?_, ?_⟩
  · -- UnregisteredEmpty
    intro t ht a
    have httid : t ≠ tid := fun hh => ht (hh ▸ htid)
    constructor
    · rw [← Option.not_isSome_iff_eq_none, mesiMiss_states_isSome,
        materialize_states_eq_of_ne s tid addr t a (fun hh => httid hh.1), (hu t ht a).1]
      simp [httid]
    · rw [mesiMiss_caches]
      simp [httid, materialize_caches, (hu t ht a).2]
  · -- EntriesMatchCaches
    intro t a
    rw [mesiMiss_states_isSome, mesiMiss_caches]
    by_cases h : t = tid ∧ a = addr
    · simp [h]
    · rw [materialize_states_eq_of_ne s tid addr t a h]
      simp only [materialize_caches, if_neg h]
      simp [he t a, h]
  · -- ExclusiveOwner
    by_cases hohc : otherHasCopy s.cacheDom s.caches tid addr = true
    · have hchar : ∀ t b, stateOf (mesiMiss (materialize s tid addr) tid addr "read") t b =
          if t = tid ∧ b = addr then MState.S
          else if t ∈ s.cacheDom ∧ b = addr ∧
              ((materialize s tid addr).coherence_states t b).isSome then MState.S
          else stateOf s t b := by
        intro t b
        rw [stateOf_mesiMiss_read_ohc (materialize s tid addr) tid addr t b hohc]
        simp only [materialize_cacheDom, stateOf_materialize]
      intro a t1 t2 hne h1
      by_cases ha : a = addr
      · exfalso
        rw [hchar t1 a] at h1
        split_ifs at h1 with c1 c2
        · rcases h1 with h | h <;> cases h
        · rcases h1 with h | h <;> cases h
        · have hne_I : stateOf s t1 a ≠ MState.I := by
            rcases h1 with h | h <;> simp [h]
          have hent : (s.coherence_states t1 a).isSome :=
            isSome_of_stateOf_ne_I s t1 a hne_I
          have hdom : t1 ∈ s.cacheDom := by
            by_contra hnd
            rw [(hu t1 hnd a).1] at hent
            cases hent
          have hentm : ((materialize s tid addr).coherence_states t1 a).isSome := by
            rw [materialize_states_isSome]
            exact Or.inl hent
          exact c2 ⟨hdom, ha, hentm⟩
      · have h1' : stateOf s t1 a = MState.M ∨ stateOf s t1 a = MState.E := by
          rw [hchar t1 a] at h1
          simpa [ha] using h1
        have h2 := hx a t1 t2 hne h1'
        rw [hchar t2 a]
        simpa [ha] using h2
    · have hohc' : otherHasCopy s.cacheDom s.caches tid addr = false := by
        simpa using hohc
      have hchar : ∀ t b, stateOf (mesiMiss (materialize s tid addr) tid addr "read") t b =
          if t = tid ∧ b = addr then MState.E else stateOf s t b := by
        intro t b
        rw [stateOf_mesiMiss_read_noohc (materialize s tid addr) tid addr t b hohc']
        simp only [stateOf_materialize]
      intro a t1 t2 hne h1
      by_cases ha : a = addr
      · by_cases ht1 : t1 = tid
        · have ht2 : t2 ≠ tid := fun hh => hne (ht1.trans hh.symm)
          have hI := allOthersInvalid_of_noCopy s tid addr hu he hohc' t2 ht2
          rw [hchar t2 a, if_neg (fun hh : t2 = tid ∧ a = addr => ht2 hh.1), ha]
          exact hI
        · exfalso
          have h1' : stateOf s t1 a = MState.M ∨ stateOf s t1 a = MState.E := by
            rw [hchar t1 a, if_neg (fun hh : t1 = tid ∧ a = addr => ht1 hh.1)] at h1
            exact h1
          have hI := allOthersInvalid_of_noCopy s tid addr hu he hohc' t1 ht1
          rw [← ha] at hI
          rcases h1' with h | h <;> rw [h] at hI <;> cases hI
      · have h1' : stateOf s t1 a = MState.M ∨ stateOf s t1 a = MState.E := by
          rw [hchar t1 a] at h1
          simpa [ha] using h1
        have h2 := hx a t1 t2 hne h1'
        rw [hchar t2 a]
        simpa [ha] using h2

theorem mesiInv_owner_generic (s s' : CacheSimulator) (tid addr : Nat)
    (htid : tid ∈ s.cacheDom)
    (hp : s.protocol = "MESI") (hd : DomsAgree s) (hu : UnregisteredEmpty s)
    (he : EntriesMatchCaches s) (hx : ExclusiveOwner s)
    (hproto : s'.protocol = s.protocol)
    (hcd : s'.cacheDom = s.cacheDom) (hsd : s'.stateDom = s.stateDom)
    (hsome : ∀ t b, (s'.coherence_states t b).isSome ↔
        ((s.coherence_states t b).isSome ∨ (t = tid ∧ b = addr)))
    (hcsome : ∀ t b, (s'.caches t b).isSome ↔
        ((s.caches t b).isSome ∨ (t = tid ∧ b = addr)))
    (hstates : ∀ t b, stateOf s' t b =
        if t = tid ∧ b = addr then MState.M
        else if t ∈ s.cacheDom ∧ t ≠ tid ∧ b = addr ∧ (s.coherence_states t b).isSome
          then MState.I
        else stateOf s t b) :
    MesiInv s' := by
  refine ⟨hproto ▸ hp, fun t => by rw [hcd, hsd]; exact hd t, ?_, ?_, ?_⟩
  · intro t ht a
    rw [hcd] at ht
    have httid : t ≠ tid := fun hh => ht (hh ▸ htid)
    constructor
    · rw [← Option.not_isSome_iff_eq_none, hsome t a, (hu t ht a).1]
      simp [httid]
    · rw [← Option.not_isSome_iff_eq_none, hcsome t a, (hu t ht a).2]
      simp [httid]
  · intro t a
    rw [hsome t a, hcsome t a, he t a]
  · intro a t1 t2 hne h1
    by_cases ha : a = addr
    · by_cases ht1 : t1 = tid
      · have ht2 : t2 ≠ tid := fun hh => hne (ht1.trans hh.symm)
        rw [hstates t2 a, if_neg (fun hh : t2 = tid ∧ a = addr => ht2 hh.1)]
        by_cases hc : t2 ∈ s.cacheDom ∧ t2 ≠ tid ∧ a = addr ∧ (s.coherence_states t2 a).isSome
        · rw [if_pos hc]
        · rw [if_neg hc]
          by_cases hdom : t2 ∈ s.cacheDom
          · have hnent : ¬(s.coherence_states t2 a).isSome :=
              fun hh => hc ⟨hdom, ht2, ha, hh⟩
            exact stateOf_eq_I_of_none s t2 a (Option.not_isSome_iff_eq_none.mp hnent)
          · exact stateOf_eq_I_of_none s t2 a (hu t2 hdom a).1
      · exfalso
        rw [hstates t1 a, if_neg (fun hh : t1 = tid ∧ a = addr => ht1 hh.1)] at h1
        split_ifs at h1 with c2
        · rcases h1 with h | h <;> cases h
        · have hne_I : stateOf s t1 a ≠ MState.I := by
            rcases h1 with h | h <;> simp [h]
          have hent := isSome_of_stateOf_ne_I s t1 a hne_I
          have hdom : t1 ∈ s.cacheDom := by
            by_contra hnd
            rw [(hu t1 hnd a).1] at hent
            cases hent
          exact c2 ⟨hdom, ht1, ha, hent⟩
    · have hfix : ∀ t, stateOf s' t a = stateOf s t a := by
        intro t
        rw [hstates t a]
        simp [ha]
      rw [hfix t2]
      rw [hfix t1] at h1
      exact hx a t1 t2 hne h1

theorem mesiInv_miss_write (gen : Nat → Nat) (s : CacheSimulator) (tid addr : Nat)
    (ty : String) (hty : ty ≠ "read") (htid : tid ∈ s.cacheDom)
    (hp : s.protocol = "MESI") (hd : DomsAgree s) (hu : UnregisteredEmpty s)
    (he : EntriesMatchCaches s) (hx : ExclusiveOwner s) :
    MesiInv (doWrite gen (mesiMiss (materialize s tid addr) tid addr ty) tid addr).2 := by
  apply mesiInv_owner_generic s _ tid addr htid hp hd hu he hx
  · simp
  · simp
  · simp
  · intro t b
    rw [doWrite_states, mesiMiss_states_isSome, materialize_states_isSome]
    tauto
  · intro t b
    rw [doWrite_caches, mesiMiss_caches]
    by_cases h : t = tid ∧ b = addr <;> simp [h, materialize_caches]
  · intro t b
    rw [stateOf_doWrite,
      stateOf_mesiMiss_write (materialize s tid addr) tid addr t b ty hty]
    by_cases h1 : t = tid ∧ b = addr
    · rw [if_pos h1, if_pos h1]
    · rw [if_neg h1, if_neg h1,
        materialize_states_eq_of_ne s tid addr t b h1, stateOf_materialize]
      simp only [materialize_cacheDom]

theorem mesiInv_hit_write_S (gen : Nat → Nat) (s : CacheSimulator) (tid addr : Nat)
    (htid : tid ∈ s.cacheDom)
    (hp : s.protocol = "MESI") (hd : DomsAgree s) (hu : UnregisteredEmpty s)
    (he : EntriesMatchCaches s) (hx : ExclusiveOwner s) :
    MesiInv (doWrite gen (mesiUpgrade (materialize s tid addr) tid addr) tid addr).2 := by
  apply mesiInv_owner_generic s _ tid addr htid hp hd hu he hx
  · simp
  · simp
  · simp
  · intro t b
    rw [doWrite_states, mesiUpgrade_states_isSome, materialize_states_isSome]
    tauto
  · intro t b
    rw [doWrite_caches]
    by_cases h : t = tid ∧ b = addr <;> simp [h, mesiUpgrade_caches, materialize_caches]
  · intro t b
    rw [stateOf_doWrite, stateOf_mesiUpgrade (materialize s tid addr) tid addr t b]
    by_cases h1 : t = tid ∧ b = addr
    · rw [if_pos h1, if_pos h1]
    · rw [if_neg h1, if_neg h1,
        materialize_states_eq_of_ne s tid addr t b h1, stateOf_materialize]
      simp only [materialize_cacheDom]

theorem mesiInv_hit_read (s : CacheSimulator) (tid addr : Nat)
    (htid : tid ∈ s.cacheDom)
    (hcache : (s.caches tid addr).isSome)
    (hp : s.protocol = "MESI") (hd : DomsAgree s) (hu : UnregisteredEmpty s)
    (he : EntriesMatchCaches s) (hx : ExclusiveOwner s) :
    MesiInv (materialize s tid addr) := by
  refine ⟨by simpa using hp, fun t => by simpa using hd t, ?_, ?_, ?_⟩
  · intro t ht a
    rw [materialize_cacheDom] at ht
    have httid : t ≠ tid := fun hh => ht (hh ▸ htid)
    rw [materialize_states_eq_of_ne s tid addr t a (fun hh => httid hh.1), materialize_caches]
    exact hu t ht a
  · intro t a
    rw [materialize_caches, materialize_states_isSome]
    by_cases h : t = tid ∧ a = addr
    · obtain ⟨h1, h2⟩ := h
      subst h1; subst h2
      simp [hcache]
    · simp [h, he t a]
  · intro a t1 t2 hne h1
    rw [stateOf_materialize] at h1 ⊢
    exact hx a t1 t2 hne h1

theorem mesiInv_hit_write_own (gen : Nat → Nat) (s : CacheSimulator) (tid addr : Nat)
    (htid : tid ∈ s.cacheDom)
    (hp : s.protocol = "MESI") (hd : DomsAgree s) (hu : UnregisteredEmpty s)
    (he : EntriesMatchCaches s) (hx : ExclusiveOwner s) :
    MesiInv (doWrite gen (materialize s tid addr) tid addr).2 := by
  refine ⟨by simpa using hp, fun t => by simpa using hd t, ?_, ?_, ?_⟩
  · intro t ht a
    rw [doWrite_cacheDom, materialize_cacheDom] at ht
    have httid : t ≠ tid := fun hh => ht (hh ▸ htid)
    rw [doWrite_states, doWrite_caches,
      materialize_states_eq_of_ne s tid addr t a (fun hh => httid hh.1), materialize_caches]
    simp only [if_neg (fun hh : t = tid ∧ a = addr => httid hh.1)]
    exact hu t ht a
  · intro t a
    rw [doWrite_states, doWrite_caches, materialize_states_isSome, materialize_caches]
    by_cases h : t = tid ∧ a = addr <;> simp [h, he t a]
  · intro a t1 t2 hne h1
    rw [stateOf_doWrite, stateOf_materialize] at h1 ⊢
    exact hx a t1 t2 hne h1

theorem mesiInv_body (gen : Nat → Nat) (s : CacheSimulator) (tid addr : Nat) (ty : String)
    (htid : tid ∈ s.cacheDom) (h : MesiInv s) :
    MesiInv (mesiBody gen s tid addr ty).2 := by
  obtain ⟨hp, hd, hu, he, hx⟩ := h
  by_cases hty : ty = "read"
  · subst hty
    by_cases hmiss : (s.caches tid addr).isNone ∨ stateOf s tid addr = MState.I
    · rw [mesiBody_miss_read gen s tid addr hmiss]
      exact mesiInv_miss_read s tid addr htid hp hd hu he hx
    · rw [mesiBody_hit_read gen s tid addr hmiss]
      have hcache : (s.caches tid addr).isSome := by
        cases hcc : s.caches tid addr with
        | none => exact absurd (Or.inl (by simp [hcc])) hmiss
        | some v => simp
      exact mesiInv_hit_read s tid addr htid hcache hp hd hu he hx
  · by_cases hmiss : (s.caches tid addr).isNone ∨ stateOf s tid addr = MState.I
    · have hnotS := miss_not_S s tid addr he hmiss
      rw [mesiBody_miss_write gen s tid addr ty hty hmiss hnotS]
      exact mesiInv_miss_write gen s tid addr ty hty htid hp hd hu he hx
    · by_cases hS : stateOf s tid addr = MState.S
      · rw [mesiBody_hit_write_S gen s tid addr ty hty hmiss hS]
        exact mesiInv_hit_write_S gen s tid addr htid hp hd hu he hx
      · rw [mesiBody_hit_write_own gen s tid addr ty hty hmiss hS]
        exact mesiInv_hit_write_own gen s tid addr htid hp hd hu he hx

theorem mesiInv_new : MesiInv (CacheSimulator.new "MESI") := by
  refine ⟨rfl, fun t => Iff.rfl, ?_, ?_, ?_⟩
  · intro t ht a
    exact ⟨rfl, rfl⟩
  · intro t a
    simp [CacheSimulator.new]
  · intro a t1 t2 hne h1
    exact absurd h1 (by simp [stateOf, CacheSimulator.new])

theorem mesiInv_init (s : CacheSimulator) (tid : Nat) (h : MesiInv s) :
    MesiInv (init_thread_cache s tid) := by
  obtain ⟨hp, hd, hu, he, hx⟩ := h
  have hsel : init_thread_cache s tid = { s with
      cacheDom := if tid ∈ s.cacheDom then s.cacheDom else s.cacheDom ++ [tid],
      caches := fun t a => if t = tid then none else s.caches t a,
      stateDom := if tid ∈ s.stateDom then s.stateDom else s.stateDom ++ [tid],
      coherence_states := fun t a => if t = tid then none else s.coherence_states t a } := by
    unfold init_thread_cache
    rw [hp]
    simp
  rw [hsel]
  refine ⟨hp, ?_, ?_, ?_, ?_⟩
  · intro t
    by_cases htc : tid ∈ s.cacheDom
    · have hts : tid ∈ s.stateDom := (hd tid).mp htc
      simp only [if_pos htc, if_pos hts]
      exact hd t
    · have hts : tid ∉ s.stateDom := fun hh => htc ((hd tid).mpr hh)
      simp only [if_neg htc, if_neg hts, List.mem_append, List.mem_singleton]
      have := hd t
      tauto
  · intro t ht a
    have httid : t ≠ tid := by
      intro hh
      subst hh
      by_cases htc : t ∈ s.cacheDom <;> simp [htc] at ht
    have hts : t ∉ s.cacheDom := by
      intro hh
      apply ht
      by_cases htc : tid ∈ s.cacheDom <;> simp [htc, hh]
    constructor <;> simp [httid, (hu t hts a).1, (hu t hts a).2]
  · intro t a
    by_cases htt : t = tid <;> simp [htt, he t a]
  · intro a t1 t2 hne h1
    by_cases h1t : t1 = tid
    · exfalso
      revert h1
      simp [stateOf, h1t]
    · by_cases h2t : t2 = tid
      · simp [stateOf, h2t]
      · have h1' : stateOf s t1 a = MState.M ∨ stateOf s t1 a = MState.E := by
          simpa [stateOf, h1t] using h1
        have h2 := hx a t1 t2 hne h1'
        simpa [stateOf, h2t] using h2

theorem mesiInv_access (gen : Nat → Nat) (s : CacheSimulator) (tid addr : Nat) (ty : String)
    (v : Nat) (s2 : CacheSimulator) (h : MesiInv s)
    (hacc : access_memory gen s tid addr ty = some (v, s2)) : MesiInv s2 := by
  have hp := h.1
  simp only [access_memory] at hacc
  have hcond : ¬((bumpAccess s).protocol = "none") := by
    rw [bumpAccess_protocol, hp]
    simp
  rw [if_neg hcond] at hacc
  unfold access_with_mesi at hacc
  by_cases h1 : tid ∈ (bumpAccess s).cacheDom
  swap
  · rw [if_neg h1] at hacc
    cases hacc
  rw [if_pos h1] at hacc
  by_cases h2 : tid ∈ (bumpAccess s).stateDom
  swap
  · rw [if_neg h2] at hacc
    cases hacc
  rw [if_pos h2] at hacc
  injection hacc with hpair
  have hb : MesiInv (bumpAccess s) := h
  have hbody := mesiInv_body gen (bumpAccess s) tid addr ty h1 hb
  rw [hpair] at hbody
  exact hbody

theorem mesiInv_applyOp (gen : Nat → Nat) (s s1 : CacheSimulator) (op : SimOp)
    (h : MesiInv s) (hop : applyOp gen s op = some s1) : MesiInv s1 := by
  cases op with
  | reg tid =>
    simp only [applyOp] at hop
    injection hop with hh
    rw [← hh]
    exact mesiInv_init s tid h
  | acc tid addr ty =>
    simp only [applyOp] at hop
    cases hacc : access_memory gen s tid addr ty with
    | none =>
      rw [hacc] at hop
      cases hop
    | some p =>
      rw [hacc] at hop
      injection hop with hh
      obtain ⟨v, s2⟩ := p
      rw [← hh]
      exact mesiInv_access gen s tid addr ty v s2 h hacc

theorem mesiInv_runOps (gen : Nat → Nat) (ops : List SimOp) (s s' : CacheSimulator)
    (h : MesiInv s) (hrun : runOps gen s ops = some s') : MesiInv s' := by
  induction ops generalizing s with
  | nil =>
    simp only [runOps] at hrun
    injection hrun with hh
    rw [← hh]
    exact h
  | cons op ops ih =>
    rw [runOps] at hrun
    cases hop : applyOp gen s op with
    | none =>
      rw [hop] at hrun
      cases hrun
    | some s1 =>
      rw [hop] at hrun
      exact ih s1 (mesiInv_applyOp gen s s1 op h hop) hrun

theorem mesiInv_reachable (gen : Nat → Nat) (ops : List SimOp) (s' : CacheSimulator)
    (hrun : runOps gen (CacheSimulator.new "MESI") ops = some s') : MesiInv s' :=
  mesiInv_runOps gen ops (CacheSimulator.new "MESI") s' mesiInv_new hrun

/-! ### Dispatch lemmas for `access_memory` -/

theorem access_memory_mesi (gen : Nat → Nat) (s : CacheSimulator) (tid addr : Nat)
    (ty : String) (hp : s.protocol = "MESI")
    (h1 : tid ∈ s.cacheDom) (h2 : tid ∈ s.stateDom) :
    access_memory gen s tid addr ty = some (mesiBody gen (bumpAccess s) tid addr ty) := by
  simp only [access_memory]
  rw [if_neg (by rw [bumpAccess_protocol, hp]; simp)]
  unfold access_with_mesi
  rw [if_pos (by rw [bumpAccess_cacheDom]; exact h1),
    if_pos (by rw [bumpAccess_stateDom]; exact h2)]

theorem access_memory_none_mode (gen : Nat → Nat) (s : CacheSimulator) (tid addr : Nat)
    (ty : String) (hp : s.protocol = "none") (h1 : tid ∈ s.cacheDom) :
    access_memory gen s tid addr ty = some (noCohBody gen (bumpAccess s) tid addr ty) := by
  simp only [access_memory]
  rw [if_pos (by rw [bumpAccess_protocol, hp])]
  unfold access_without_coherence
  rw [if_pos (by rw [bumpAccess_cacheDom]; exact h1)]

/-! ### A fresh two-core coherent engine, used by the concrete scenarios -/

/-- Fresh MESI engine with cores 0 and 1 registered. -/
def engine01 : CacheSimulator :=
  init_thread_cache (init_thread_cache (CacheSimulator.new "MESI") 0) 1

theorem engine01_protocol : engine01.protocol = "MESI" := rfl

theorem engine01_cacheDom : engine01.cacheDom = [0, 1] := rfl

theorem engine01_stateDom : engine01.stateDom = [0, 1] := rfl

theorem engine01_misses : engine01.cache_misses = 0 := rfl

theorem engine01_msgs : engine01.coherence_messages = 0 := rfl

theorem engine01_rng : engine01.rng = 0 := rfl

theorem engine01_caches (t a : Nat) : engine01.caches t a = none := by
  show (if t = 1 then none else if t = 0 then none else none) = none
  split_ifs <;> rfl

theorem engine01_states (t a : Nat) : engine01.coherence_states t a = none := by
  show (if t = 1 then none else if t = 0 then none else none) = none
  split_ifs <;> rfl

theorem engine01_shared (a : Nat) : engine01.shared_memory a = none := rfl

theorem stateOf_engine01 (t a : Nat) : stateOf engine01 t a = MState.I := by
  rw [stateOf, engine01_states]
  rfl

/-! ### Witness runs used by the claims -/

/-- Deterministic value stream standing in for `random.randint`. -/
def wGen : Nat → Nat := fun n => n + 1

/-- Register cores 0 and 1, core 0 writes address 5, core 1 reads it. -/
def wOps1 : List SimOp :=
  [SimOp.reg 0, SimOp.reg 1, SimOp.acc 0 5 "write", SimOp.acc 1 5 "read"]

/-- Result of running `wOps1` on a fresh coherent engine. -/
def wRun1 : CacheSimulator :=
  (runOps wGen (CacheSimulator.new "MESI") wOps1).getD (CacheSimulator.new "MESI")

/-- Register cores 0 and 1, core 0 writes address 5, core 1 writes it. -/
def wOps2 : List SimOp :=
  [SimOp.reg 0, SimOp.reg 1, SimOp.acc 0 5 "write", SimOp.acc 1 5 "write"]

/-- Result of running `wOps2` on a fresh coherent engine. -/
def wRun2 : CacheSimulator :=
  (runOps wGen (CacheSimulator.new "MESI") wOps2).getD (CacheSimulator.new "MESI")

/-! ### The claims -/

/-- C1: in coherent (MESI) mode, for every address and at every observable
instant between completed access calls, at most one core holds state Modified
or Exclusive for that address, and if any core holds Modified for the address
then every other core's state for that address is Invalid; this is preserved
by every sequence of access calls from registered cores (any run of
registrations and successful accesses from a fresh coherent engine). -/
theorem claim_C1_mesi_exclusive (gen : Nat → Nat) (ops : List SimOp) (s : CacheSimulator)
    (h : runOps gen (CacheSimulator.new "MESI") ops = some s) :
    (∀ addr t1 t2, t1 ≠ t2 →
        ¬((stateOf s t1 addr = MState.M ∨ stateOf s t1 addr = MState.E) ∧
          (stateOf s t2 addr = MState.M ∨ stateOf s t2 addr = MState.E))) ∧
    (∀ addr t1 t2, t1 ≠ t2 → stateOf s t1 addr = MState.M →
        stateOf s t2 addr = MState.I) := by
  have hx := (mesiInv_reachable gen ops s h).2.2.2.2
  constructor
  · intro addr t1 t2 hne hpair
    obtain ⟨h1, h2⟩ := hpair
    have hI := hx addr t1 t2 hne h1
    rcases h2 with hh | hh <;> rw [hI] at hh <;> cases hh
  · intro addr t1 t2 hne h1
    exact hx addr t1 t2 hne (Or.inl h1)

/-- Witness for C1 at a concrete run: after core 0 writes address 5 and
core 1 reads it, cores 0 and 1 do not both own the line. -/
theorem claim_C1_witness :
    ¬((stateOf wRun1 0 5 = MState.M ∨ stateOf wRun1 0 5 = MState.E) ∧
      (stateOf wRun1 1 5 = MState.M ∨ stateOf wRun1 1 5 = MState.E)) :=
  (claim_C1_mesi_exclusive wGen wOps1 wRun1 rfl).1 5 0 1 (by decide)

/-- C2, counterexample: the claim's "cache entry iff state not Invalid" fails
on a reachable state.  After core 0 writes address 5 and core 1 then writes
it, core 0's state is Invalid yet core 0's cache still holds an entry for
address 5. -/
theorem claim_C2_counterexample :
    runOps wGen (CacheSimulator.new "MESI") wOps2 = some wRun2 ∧
    ¬((wRun2.caches 0 5).isSome = true ↔ stateOf wRun2 0 5 ≠ MState.I) := by
  constructor
  · rfl
  · decide

/-- C2, amended: in coherent mode, on every reachable state, a core whose
coherence state for an address is not Invalid has a cache entry for that
address; the converse direction of the original claim is false, because a
core invalidated by another core's write keeps its (stale, no longer served)
cache entry. -/
theorem claim_C2_valid_state_has_entry (gen : Nat → Nat) (ops : List SimOp)
    (s : CacheSimulator)
    (h : runOps gen (CacheSimulator.new "MESI") ops = some s) :
    ∀ t a, stateOf s t a ≠ MState.I → (s.caches t a).isSome := by
  have he := (mesiInv_reachable gen ops s h).2.2.2.1
  intro t a hne
  exact (he t a).mp (isSome_of_stateOf_ne_I s t a hne)

/-- Witness for the amended C2: after `wOps1`, core 1 holds Shared for
address 5 and indeed has a cache entry for it. -/
theorem claim_C2_witness : (wRun1.caches 1 5).isSome = true :=
  claim_C2_valid_state_has_entry wGen wOps1 wRun1 rfl 1 5 (by decide)

/-! ### C3 intermediate states -/

/-- State after core 0's write to X on the fresh two-core engine. -/
def c3s1 (gen : Nat → Nat) (X : Nat) : CacheSimulator :=
  (doWrite gen (mesiMiss (materialize (bumpAccess engine01) 0 X) 0 X "write") 0 X).2

/-- State after core 1's subsequent read of X. -/
def c3s2 (gen : Nat → Nat) (X : Nat) : CacheSimulator :=
  mesiMiss (materialize (bumpAccess (c3s1 gen X)) 1 X) 1 X "read"

/-- State after core 1's subsequent write to X. -/
def c3s3 (gen : Nat → Nat) (X : Nat) : CacheSimulator :=
  (doWrite gen (mesiUpgrade (materialize (bumpAccess (c3s2 gen X)) 1 X) 1 X) 1 X).2

theorem c3_e1 (gen : Nat → Nat) (X : Nat) :
    access_memory gen engine01 0 X "write" =
      some ((doWrite gen (mesiMiss (materialize (bumpAccess engine01) 0 X) 0 X "write") 0 X).1,
        c3s1 gen X) := by
  rw [access_memory_mesi gen engine01 0 X "write" rfl (by decide) (by decide)]
  rfl

theorem c3_s1_misses (gen : Nat → Nat) (X : Nat) : (c3s1 gen X).cache_misses = 1 := rfl

theorem c3_s1_msgs (gen : Nat → Nat) (X : Nat) : (c3s1 gen X).coherence_messages = 2 := rfl

theorem c3_s1_state0 (gen : Nat → Nat) (X : Nat) : stateOf (c3s1 gen X) 0 X = MState.M := by
  unfold c3s1
  rw [stateOf_doWrite, stateOf_mesiMiss_write _ 0 X 0 X "write" (by decide)]
  simp

theorem c3_s1_shared (gen : Nat → Nat) (X : Nat) :
    (c3s1 gen X).shared_memory X =
      some ((doWrite gen (mesiMiss (materialize (bumpAccess engine01) 0 X) 0 X "write") 0 X).1) := by
  unfold c3s1
  rw [doWrite_shared]
  simp

theorem c3s1_cacheDom (gen : Nat → Nat) (X : Nat) : (c3s1 gen X).cacheDom = [0, 1] := rfl

theorem c3s1_stateDom (gen : Nat → Nat) (X : Nat) : (c3s1 gen X).stateDom = [0, 1] := rfl

theorem c3_e2 (gen : Nat → Nat) (X : Nat) :
    access_memory gen (c3s1 gen X) 1 X "read" =
      some (((c3s2 gen X).caches 1 X).getD 0, c3s2 gen X) := by
  rw [access_memory_mesi gen (c3s1 gen X) 1 X "read" rfl
    (by rw [c3s1_cacheDom]; decide) (by rw [c3s1_stateDom]; decide)]
  rfl

theorem c3_ohc2 (gen : Nat → Nat) (X : Nat) :
    otherHasCopy (c3s1 gen X).cacheDom (c3s1 gen X).caches 1 X = true := by
  have h0 : ((c3s1 gen X).caches 0 X).isSome = true := by
    simp [c3s1, doWrite_caches]
  exact (otherHasCopy_true_iff _ _ 1 X).mpr ⟨0, by rw [c3s1_cacheDom]; decide, by decide, h0⟩

theorem c3_ent0 (gen : Nat → Nat) (X : Nat) :
    ((materialize (bumpAccess (c3s1 gen X)) 1 X).coherence_states 0 X).isSome := by
  rw [materialize_states_isSome]
  left
  simp [c3s1, mesiMiss_states_isSome]

theorem c3_s2_misses (gen : Nat → Nat) (X : Nat) : (c3s2 gen X).cache_misses = 2 := rfl

theorem c3_s2_state1 (gen : Nat → Nat) (X : Nat) : stateOf (c3s2 gen X) 1 X = MState.S := by
  unfold c3s2
  rw [stateOf_mesiMiss_read_ohc (materialize (bumpAccess (c3s1 gen X)) 1 X) 1 X 1 X
    (c3_ohc2 gen X)]
  simp

theorem c3_s2_state0 (gen : Nat → Nat) (X : Nat) : stateOf (c3s2 gen X) 0 X = MState.S := by
  unfold c3s2
  rw [stateOf_mesiMiss_read_ohc (materialize (bumpAccess (c3s1 gen X)) 1 X) 1 X 0 X
    (c3_ohc2 gen X)]
  have hent := c3_ent0 gen X
  simp [c3s1_cacheDom, hent]

theorem c3_s2_msgs (gen : Nat → Nat) (X : Nat) : (c3s2 gen X).coherence_messages = 4 := by
  unfold c3s2
  rw [mesiMiss_msgs]
  simp [c3_ohc2 gen X, c3_s1_msgs gen X]

theorem c3_r_val (gen : Nat → Nat) (X : Nat) :
    ((c3s2 gen X).caches 1 X).getD 0 =
      (doWrite gen (mesiMiss (materialize (bumpAccess engine01) 0 X) 0 X "write") 0 X).1 := by
  show ((c3s2 gen X).caches 1 X).getD 0 = _
  unfold c3s2
  rw [mesiMiss_caches]
  simp [c3s1, doWrite_shared]

theorem c3s2_cacheDom (gen : Nat → Nat) (X : Nat) : (c3s2 gen X).cacheDom = [0, 1] := rfl

theorem c3s2_stateDom (gen : Nat → Nat) (X : Nat) : (c3s2 gen X).stateDom = [0, 1] := rfl

theorem c3_e3 (gen : Nat → Nat) (X : Nat) :
    access_memory gen (c3s2 gen X) 1 X "write" =
      some ((doWrite gen (mesiUpgrade (materialize (bumpAccess (c3s2 gen X)) 1 X) 1 X) 1 X).1,
        c3s3 gen X) := by
  have hs : stateOf (bumpAccess (c3s2 gen X)) 1 X = MState.S := by
    rw [stateOf_bumpAccess]
    exact c3_s2_state1 gen X
  have hm : ¬(((bumpAccess (c3s2 gen X)).caches 1 X).isNone = true ∨
      stateOf (bumpAccess (c3s2 gen X)) 1 X = MState.I) := by
    intro h
    rcases h with h | h
    · rw [bumpAccess_caches] at h
      unfold c3s2 at h
      rw [mesiMiss_caches] at h
      simp at h
    · rw [hs] at h
      cases h
  rw [access_memory_mesi gen (c3s2 gen X) 1 X "write" rfl
    (by rw [c3s2_cacheDom]; decide) (by rw [c3s2_stateDom]; decide)]
  congr 1
  rw [mesiBody_hit_write_S gen (bumpAccess (c3s2 gen X)) 1 X "write" (by decide) hm hs]
  rfl

theorem c3_s3_misses (gen : Nat → Nat) (X : Nat) : (c3s3 gen X).cache_misses = 2 := rfl

theorem c3_s3_msgs (gen : Nat → Nat) (X : Nat) : (c3s3 gen X).coherence_messages = 5 := by
  unfold c3s3
  simp [c3_s2_msgs gen X]

theorem c3_s3_state1 (gen : Nat → Nat) (X : Nat) : stateOf (c3s3 gen X) 1 X = MState.M := by
  unfold c3s3
  rw [stateOf_doWrite, stateOf_mesiUpgrade]
  simp

theorem c3_s3_state0 (gen : Nat → Nat) (X : Nat) : stateOf (c3s3 gen X) 0 X = MState.I := by
  unfold c3s3
  rw [stateOf_doWrite, stateOf_mesiUpgrade]
  have hent : ((materialize (bumpAccess (c3s2 gen X)) 1 X).coherence_states 0 X).isSome := by
    rw [materialize_states_isSome]
    left
    show ((c3s2 gen X).coherence_states 0 X).isSome = true
    unfold c3s2
    simp [mesiMiss_states_isSome, c3_ent0 gen X]
  simp [c3s2_cacheDom, hent]

theorem c3_s3_caches (gen : Nat → Nat) (X : Nat) :
    (c3s3 gen X).caches 1 X =
      some ((doWrite gen (mesiUpgrade (materialize (bumpAccess (c3s2 gen X)) 1 X) 1 X) 1 X).1) := by
  unfold c3s3
  rw [doWrite_caches]
  simp

theorem c3_s3_shared (gen : Nat → Nat) (X : Nat) :
    (c3s3 gen X).shared_memory X =
      some ((doWrite gen (mesiUpgrade (materialize (bumpAccess (c3s2 gen X)) 1 X) 1 X) 1 X).1) := by
  unfold c3s3
  rw [doWrite_shared]
  simp

/-- C3: end-to-end coherent scenario on a fresh engine with cores 0 and 1
registered and any address X (every address of a fresh engine is untouched):
core 0's write to X misses (misses becomes 1), leaves state(0,X) Modified
and charges exactly 2 coherence messages; core 1's subsequent read of X
misses (misses becomes 2), leaves state(1,X) Shared, downgrades state(0,X)
to Shared, charges exactly 2 more messages, and returns exactly the value X
held after core 0's write; core 1's subsequent write to X is not a miss
(misses stays 2), promotes state(1,X) to Modified, sets state(0,X) to
Invalid, charges exactly 1 more message, and stores a newly generated value
(the next draw of the value stream) in core 1's cache and the shared
store. -/
theorem claim_C3_end_to_end (gen : Nat → Nat) (X : Nat) :
    ∃ v0 s1, access_memory gen engine01 0 X "write" = some (v0, s1) ∧
      s1.cache_misses = 1 ∧ stateOf s1 0 X = MState.M ∧ s1.coherence_messages = 2 ∧
      s1.shared_memory X = some v0 ∧
      ∃ r s2, access_memory gen s1 1 X "read" = some (r, s2) ∧
        s2.cache_misses = 2 ∧ stateOf s2 1 X = MState.S ∧ stateOf s2 0 X = MState.S ∧
        s2.coherence_messages = 4 ∧ s1.shared_memory X = some r ∧
        ∃ v2 s3, access_memory gen s2 1 X "write" = some (v2, s3) ∧
          s3.cache_misses = 2 ∧ stateOf s3 1 X = MState.M ∧ stateOf s3 0 X = MState.I ∧
          s3.coherence_messages = 5 ∧ v2 = gen s2.rng ∧
          s3.caches 1 X = some v2 ∧ s3.shared_memory X = some v2 := by
  refine ⟨_, c3s1 gen X, c3_e1 gen X, c3_s1_misses gen X, c3_s1_state0 gen X,
    c3_s1_msgs gen X, c3_s1_shared gen X,
    _, c3s2 gen X, c3_e2 gen X, c3_s2_misses gen X, c3_s2_state1 gen X,
    c3_s2_state0 gen X, c3_s2_msgs gen X, ?_,
    _, c3s3 gen X, c3_e3 gen X, c3_s3_misses gen X, c3_s3_state1 gen X,
    c3_s3_state0 gen X, c3_s3_msgs gen X, rfl, c3_s3_caches gen X, c3_s3_shared gen X⟩
  rw [c3_r_val gen X]
  exact c3_s1_shared gen X

/-! ### C4: the fan-out touches exactly the state-table entries -/

theorem mesiBody_miss_write_S (gen : Nat → Nat) (s : CacheSimulator) (tid addr : Nat)
    (ty : String) (hty : ty ≠ "read")
    (hmiss : (s.caches tid addr).isNone ∨ stateOf s tid addr = MState.I)
    (hS : stateOf s tid addr = MState.S) :
    mesiBody gen s tid addr ty =
      doWrite gen (mesiUpgrade (mesiMiss (materialize s tid addr) tid addr ty) tid addr)
        tid addr := by
  simp only [mesiBody, materialize_caches]
  rw [if_pos hmiss, if_neg hty, if_pos hS]

theorem stateOf_mesiUpgrade_noop (s' : CacheSimulator) (tid addr : Nat)
    (hM : stateOf s' tid addr = MState.M)
    (hI : ∀ t, t ≠ tid → (s'.coherence_states t addr).isSome → t ∈ s'.cacheDom →
        stateOf s' t addr = MState.I) :
    ∀ t, stateOf (mesiUpgrade s' tid addr) t addr = stateOf s' t addr := by
  intro t
  rw [stateOf_mesiUpgrade]
  by_cases ht : t = tid
  · rw [if_pos ⟨ht, rfl⟩, ht, hM]
  · rw [if_neg (fun hh : t = tid ∧ addr = addr => ht hh.1)]
    by_cases hc : t ∈ s'.cacheDom ∧ t ≠ tid ∧ addr = addr ∧ (s'.coherence_states t addr).isSome
    · rw [if_pos hc, hI t ht hc.2.2.2 hc.1]
    · rw [if_neg hc]

theorem c4_miss_write_states (s : CacheSimulator) (tid addr : Nat) :
    ∀ t, stateOf (mesiMiss (materialize s tid addr) tid addr "write") t addr =
      if t = tid then MState.M
      else if t ∈ s.cacheDom ∧ (s.coherence_states t addr).isSome then MState.I
      else stateOf s t addr := by
  intro t
  rw [stateOf_mesiMiss_write (materialize s tid addr) tid addr t addr "write" (by decide)]
  simp only [materialize_cacheDom, stateOf_materialize]
  by_cases ht : t = tid
  · simp [ht]
  · by_cases hent : (s.coherence_states t addr).isSome
    · by_cases hdom : t ∈ s.cacheDom <;>
        simp [ht, hdom, hent, materialize_states_eq_of_ne s tid addr t addr (fun hh => ht hh.1)]
    · simp [ht, hent, materialize_states_eq_of_ne s tid addr t addr (fun hh => ht hh.1)]

theorem c4_read_states (gen : Nat → Nat) (s : CacheSimulator) (tid addr : Nat)
    (hmiss : (s.caches tid addr).isNone ∨ stateOf s tid addr = MState.I)
    (hohc : otherHasCopy s.cacheDom s.caches tid addr = true) :
    ∀ t, stateOf (mesiBody gen s tid addr "read").2 t addr =
      if t = tid then MState.S
      else if t ∈ s.cacheDom ∧ (s.coherence_states t addr).isSome then MState.S
      else stateOf s t addr := by
  intro t
  rw [mesiBody_miss_read gen s tid addr hmiss]
  show stateOf (mesiMiss (materialize s tid addr) tid addr "read") t addr = _
  rw [stateOf_mesiMiss_read_ohc (materialize s tid addr) tid addr t addr hohc]
  simp only [materialize_cacheDom, stateOf_materialize]
  by_cases ht : t = tid
  · simp [ht]
  · by_cases hent : (s.coherence_states t addr).isSome
    · by_cases hdom : t ∈ s.cacheDom <;>
        simp [ht, hdom, hent, materialize_states_eq_of_ne s tid addr t addr (fun hh => ht hh.1)]
    · simp [ht, hent, materialize_states_eq_of_ne s tid addr t addr (fun hh => ht hh.1)]

theorem c4_write_states (gen : Nat → Nat) (s : CacheSimulator) (tid addr : Nat)
    (hmiss : (s.caches tid addr).isNone ∨ stateOf s tid addr = MState.I) :
    ∀ t, stateOf (mesiBody gen s tid addr "write").2 t addr =
      if t = tid then MState.M
      else if t ∈ s.cacheDom ∧ (s.coherence_states t addr).isSome then MState.I
      else stateOf s t addr := by
  have hty : ("write" : String) ≠ "read" := by decide
  have base := c4_miss_write_states s tid addr
  by_cases hS : stateOf s tid addr = MState.S
  · intro t
    rw [mesiBody_miss_write_S gen s tid addr "write" hty hmiss hS]
    show stateOf (mesiUpgrade (mesiMiss (materialize s tid addr) tid addr "write") tid addr)
        t addr = _
    have hM : stateOf (mesiMiss (materialize s tid addr) tid addr "write") tid addr =
        MState.M := by
      rw [base tid, if_pos rfl]
    have hI : ∀ t', t' ≠ tid →
        ((mesiMiss (materialize s tid addr) tid addr "write").coherence_states t' addr).isSome →
        t' ∈ (mesiMiss (materialize s tid addr) tid addr "write").cacheDom →
        stateOf (mesiMiss (materialize s tid addr) tid addr "write") t' addr = MState.I := by
      intro t' ht' hentmm hdom'
      have hent : (s.coherence_states t' addr).isSome := by
        rw [mesiMiss_states_isSome, materialize_states_isSome] at hentmm
        rcases hentmm with (h | h) | h
        · exact h
        · exact absurd h.1 ht'
        · exact absurd h.1 ht'
      have hdom : t' ∈ s.cacheDom := hdom'
      rw [base t', if_neg ht', if_pos ⟨hdom, hent⟩]
    rw [stateOf_mesiUpgrade_noop (mesiMiss (materialize s tid addr) tid addr "write")
      tid addr hM hI t]
    exact base t
  · intro t
    rw [mesiBody_miss_write gen s tid addr "write" hty hmiss hS]
    show stateOf (doWrite gen (mesiMiss (materialize s tid addr) tid addr "write") tid addr).2
        t addr = _
    rw [stateOf_doWrite]
    exact base t

/-- C4: in coherent mode, the invalidation/promotion fan-out of a miss on
address A touches exactly the cores that have a coherence-state table entry
for A (even an Invalid one), not the cores that hold a live cached copy: a
read miss that finds another cached copy sets the requester and every core
with a table entry for A to Shared, and a write miss sets every other core
with a table entry for A to Invalid, leaving every core without a table
entry untouched, regardless of the contents of those cores' caches. -/
theorem claim_C4_fanout_by_table_entry (gen : Nat → Nat) (s : CacheSimulator)
    (tid addr : Nat) (hp : s.protocol = "MESI")
    (h1 : tid ∈ s.cacheDom) (h2 : tid ∈ s.stateDom)
    (hmiss : (s.caches tid addr).isNone ∨ stateOf s tid addr = MState.I) :
    (otherHasCopy s.cacheDom s.caches tid addr = true →
      ∀ v s', access_memory gen s tid addr "read" = some (v, s') →
        ∀ t, stateOf s' t addr =
          if t = tid then MState.S
          else if t ∈ s.cacheDom ∧ (s.coherence_states t addr).isSome then MState.S
          else stateOf s t addr) ∧
    (∀ v s', access_memory gen s tid addr "write" = some (v, s') →
      ∀ t, stateOf s' t addr =
        if t = tid then MState.M
        else if t ∈ s.cacheDom ∧ (s.coherence_states t addr).isSome then MState.I
        else stateOf s t addr) := by
  constructor
  · intro hohc v s' hacc t
    rw [access_memory_mesi gen s tid addr "read" hp h1 h2] at hacc
    injection hacc with hpair
    have hs' : s' = (mesiBody gen (bumpAccess s) tid addr "read").2 := by
      rw [hpair]
    rw [hs']
    exact c4_read_states gen (bumpAccess s) tid addr hmiss hohc t
  · intro v s' hacc t
    rw [access_memory_mesi gen s tid addr "write" hp h1 h2] at hacc
    injection hacc with hpair
    have hs' : s' = (mesiBody gen (bumpAccess s) tid addr "write").2 := by
      rw [hpair]
    rw [hs']
    exact c4_write_states gen (bumpAccess s) tid addr hmiss t

/-- Hand-built coherent state for exercising the fan-out: cores 0, 1, 2 are
registered; core 1 holds a cached copy of address 5 (state Shared); core 2
has a coherence-table entry for address 5 (state Invalid) but no cached copy;
core 0 holds nothing. -/
def c4State : CacheSimulator where
  protocol := "MESI"
  cacheDom := [0, 1, 2]
  caches := fun t a => if t = 1 ∧ a = 5 then some 7 else none
  shared_memory := fun a => if a = 5 then some 7 else none
  cache_misses := 0
  coherence_messages := 0
  memory_accesses := 0
  stateDom := [0, 1, 2]
  coherence_states := fun t a =>
    if t = 2 ∧ a = 5 then some MState.I
    else if t = 1 ∧ a = 5 then some MState.S
    else none
  rng := 0

/-- Witness for C4: in `c4State`, core 2 has a table entry for address 5 but
no cached copy, and core 0's read miss still sets core 2's state to Shared. -/
theorem claim_C4_witness :
    c4State.caches 2 5 = none ∧
    stateOf ((access_memory wGen c4State 0 5 "read").getD (0, c4State)).2 2 5 = MState.S := by
  constructor
  · rfl
  · have h := (claim_C4_fanout_by_table_entry wGen c4State 0 5 rfl (by decide) (by decide)
      (Or.inl rfl)).1 rfl
      ((access_memory wGen c4State 0 5 "read").getD (0, c4State)).1
      ((access_memory wGen c4State 0 5 "read").getD (0, c4State)).2 rfl 2
    rw [h]
    decide

/-! ### C5: a first access to an untouched address always misses -/

theorem mesiBody_misses_of_miss (gen : Nat → Nat) (s : CacheSimulator) (tid addr : Nat)
    (ty : String)
    (hmiss : (s.caches tid addr).isNone ∨ stateOf s tid addr = MState.I) :
    (mesiBody gen s tid addr ty).2.cache_misses = s.cache_misses + 1 := by
  by_cases hty : ty = "read"
  · subst hty
    rw [mesiBody_miss_read gen s tid addr hmiss]
    show (mesiMiss (materialize s tid addr) tid addr "read").cache_misses = _
    simp
  · by_cases hS : stateOf s tid addr = MState.S
    · rw [mesiBody_miss_write_S gen s tid addr ty hty hmiss hS]
      show (doWrite gen (mesiUpgrade (mesiMiss (materialize s tid addr) tid addr ty) tid addr)
        tid addr).2.cache_misses = _
      simp
    · rw [mesiBody_miss_write gen s tid addr ty hty hmiss hS]
      show (doWrite gen (mesiMiss (materialize s tid addr) tid addr ty) tid addr).2.cache_misses = _
      simp

theorem noCohBody_misses_of_miss (gen : Nat → Nat) (s : CacheSimulator) (tid addr : Nat)
    (ty : String) (hmiss : (s.caches tid addr).isNone) :
    (noCohBody gen s tid addr ty).2.cache_misses = s.cache_misses + 1 := by
  simp only [noCohBody]
  rw [if_pos hmiss]
  by_cases hty : ty = "read" <;> simp [hty]

/-- C5: in both modes, a registered core's first access, Read or Write, to an
address no core has touched (absent from every per-core cache and from the
shared store) increments the miss counter by exactly 1. -/
theorem claim_C5_first_access_misses (gen : Nat → Nat) (s : CacheSimulator)
    (tid addr : Nat) (ty : String)
    (_hty : ty = "read" ∨ ty = "write")
    (hmode : s.protocol = "MESI" ∨ s.protocol = "none")
    (hreg : tid ∈ s.cacheDom)
    (hsreg : s.protocol = "MESI" → tid ∈ s.stateDom)
    (huntouched : (∀ t, s.caches t addr = none) ∧ s.shared_memory addr = none) :
    ∃ v s', access_memory gen s tid addr ty = some (v, s') ∧
      s'.cache_misses = s.cache_misses + 1 := by
  have hcn : ((bumpAccess s).caches tid addr).isNone := by
    rw [bumpAccess_caches, huntouched.1 tid]
    rfl
  rcases hmode with hp | hp
  · rw [access_memory_mesi gen s tid addr ty hp hreg (hsreg hp)]
    exact ⟨(mesiBody gen (bumpAccess s) tid addr ty).1,
      (mesiBody gen (bumpAccess s) tid addr ty).2, rfl,
      mesiBody_misses_of_miss gen (bumpAccess s) tid addr ty (Or.inl hcn)⟩
  · rw [access_memory_none_mode gen s tid addr ty hp hreg]
    exact ⟨(noCohBody gen (bumpAccess s) tid addr ty).1,
      (noCohBody gen (bumpAccess s) tid addr ty).2, rfl,
      noCohBody_misses_of_miss gen (bumpAccess s) tid addr ty hcn⟩

/-- Witness for C5: core 0's first read of address 5 on the fresh two-core
coherent engine records exactly one miss. -/
theorem claim_C5_witness :
    ((access_memory wGen engine01 0 5 "read").getD (0, engine01)).2.cache_misses = 1 := by
  obtain ⟨v, s', heq, hm⟩ := claim_C5_first_access_misses wGen engine01 0 5 "read"
    (Or.inl rfl) (Or.inl rfl) (by decide) (fun _ => by decide)
    ⟨fun t => engine01_caches t 5, rfl⟩
  rw [heq]
  exact hm

/-! ### C6: no-coherence mode serves stale cached reads -/

theorem noCohBody_read_hit (gen : Nat → Nat) (s : CacheSimulator) (tid addr : Nat)
    (hc : ¬(s.caches tid addr).isNone) :
    noCohBody gen s tid addr "read" = ((s.caches tid addr).getD 0, s) := by
  simp only [noCohBody]
  rw [if_neg hc]
  simp

theorem noCohBody_write_eq (gen : Nat → Nat) (s : CacheSimulator) (tid addr : Nat) :
    noCohBody gen s tid addr "write" =
      doWrite gen (if (s.caches tid addr).isNone then noCohMiss s tid addr else s)
        tid addr := by
  simp only [noCohBody]
  rw [if_neg (show ("write" : String) ≠ "read" by decide)]

/-- C6: in mode none, if core B holds a cache entry for X, then core A writes
X, and then core B reads X, B's read is a hit (no miss is recorded) that
returns B's previously cached value, not the value A wrote to the shared
store. -/
theorem claim_C6_stale_read (gen : Nat → Nat) (s : CacheSimulator) (A B addr vB : Nat)
    (hp : s.protocol = "none") (hAB : A ≠ B)
    (hA : A ∈ s.cacheDom) (hB : B ∈ s.cacheDom)
    (hBcache : s.caches B addr = some vB) :
    ∃ vA s1, access_memory gen s A addr "write" = some (vA, s1) ∧
      s1.shared_memory addr = some vA ∧
      ∃ r s2, access_memory gen s1 B addr "read" = some (r, s2) ∧
        r = vB ∧ s2.cache_misses = s1.cache_misses ∧ (vA ≠ vB → r ≠ vA) := by
  have hBA : B ≠ A := Ne.symm hAB
  rw [access_memory_none_mode gen s A addr "write" hp hA]
  rw [noCohBody_write_eq gen (bumpAccess s) A addr]
  set s1' := if ((bumpAccess s).caches A addr).isNone then noCohMiss (bumpAccess s) A addr
    else bumpAccess s with hs1'
  have hbprot : (doWrite gen s1' A addr).2.protocol = "none" := by
    rw [doWrite_protocol, hs1']
    split_ifs <;> simp [hp]
  have hbdom : B ∈ (doWrite gen s1' A addr).2.cacheDom := by
    rw [doWrite_cacheDom, hs1']
    split_ifs <;> simp [hB]
  have hbcache : (doWrite gen s1' A addr).2.caches B addr = some vB := by
    rw [doWrite_caches, if_neg (fun hh : B = A ∧ addr = addr => hBA hh.1), hs1']
    split_ifs with h
    · rw [noCohMiss_caches, if_neg (fun hh : B = A ∧ addr = addr => hBA hh.1)]
      exact hBcache
    · exact hBcache
  refine ⟨gen s1'.rng, (doWrite gen s1' A addr).2, rfl, ?_, ?_⟩
  · rw [doWrite_shared]
    simp
  · rw [access_memory_none_mode gen _ B addr "read" hbprot hbdom]
    have hhit : ¬((bumpAccess (doWrite gen s1' A addr).2).caches B addr).isNone := by
      rw [bumpAccess_caches, hbcache]
      simp
    rw [noCohBody_read_hit gen _ B addr hhit]
    have hr : ((bumpAccess (doWrite gen s1' A addr).2).caches B addr).getD 0 = vB := by
      rw [bumpAccess_caches, hbcache]
      rfl
    refine ⟨((bumpAccess (doWrite gen s1' A addr).2).caches B addr).getD 0,
      bumpAccess (doWrite gen s1' A addr).2, rfl, hr, rfl, ?_⟩
    intro hne hcontra
    rw [hr] at hcontra
    exact hne hcontra.symm

/-- Uncoordinated-mode engine where core 1 has cached address 5 (value 0). -/
def c6State : CacheSimulator :=
  (runOps wGen (CacheSimulator.new "none")
    [SimOp.reg 0, SimOp.reg 1, SimOp.acc 1 5 "read"]).getD (CacheSimulator.new "none")

/-- Witness for C6: with core 1 holding address 5 cached, core 0's write then
core 1's read shows core 1 reading its stale value. -/
theorem claim_C6_witness :
    ∃ vA s1, access_memory wGen c6State 0 5 "write" = some (vA, s1) ∧
      s1.shared_memory 5 = some vA ∧
      ∃ r s2, access_memory wGen s1 1 5 "read" = some (r, s2) ∧
        r = 0 ∧ s2.cache_misses = s1.cache_misses ∧ (vA ≠ 0 → r ≠ vA) :=
  claim_C6_stale_read wGen c6State 0 1 5 0 rfl (by decide) (by decide) (by decide) (by decide)

/-! ### C7: writes draw a fresh value and write through -/

theorem mesiBody_write_shape (gen : Nat → Nat) (s : CacheSimulator) (tid addr : Nat) :
    ∃ s2, mesiBody gen s tid addr "write" = doWrite gen s2 tid addr ∧ s2.rng = s.rng := by
  have hty : ("write" : String) ≠ "read" := by decide
  by_cases hmiss : (s.caches tid addr).isNone ∨ stateOf s tid addr = MState.I
  · by_cases hS : stateOf s tid addr = MState.S
    · exact ⟨_, mesiBody_miss_write_S gen s tid addr "write" hty hmiss hS, by simp⟩
    · exact ⟨_, mesiBody_miss_write gen s tid addr "write" hty hmiss hS, by simp⟩
  · by_cases hS : stateOf s tid addr = MState.S
    · exact ⟨_, mesiBody_hit_write_S gen s tid addr "write" hty hmiss hS, by simp⟩
    · exact ⟨_, mesiBody_hit_write_own gen s tid addr "write" hty hmiss hS, by simp⟩

theorem noCohBody_write_shape (gen : Nat → Nat) (s : CacheSimulator) (tid addr : Nat) :
    ∃ s2, noCohBody gen s tid addr "write" = doWrite gen s2 tid addr ∧ s2.rng = s.rng := by
  rw [noCohBody_write_eq gen s tid addr]
  refine ⟨_, rfl, ?_⟩
  split_ifs <;> simp

/-- C7: in both modes, a Write by a registered core returns the next value
drawn from the injected value stream (the model of `random.randint`, fresh
rather than taken from any prior cache or store state), advances the stream,
and when the call returns that value equals both the requesting core's cache
entry for the address and the shared store's entry (write-through). -/
theorem claim_C7_write_through (gen : Nat → Nat) (s : CacheSimulator) (tid addr : Nat)
    (hmode : s.protocol = "MESI" ∨ s.protocol = "none")
    (hreg : tid ∈ s.cacheDom)
    (hsreg : s.protocol = "MESI" → tid ∈ s.stateDom) :
    ∃ s', access_memory gen s tid addr "write" = some (gen s.rng, s') ∧
      s'.caches tid addr = some (gen s.rng) ∧
      s'.shared_memory addr = some (gen s.rng) ∧
      s'.rng = s.rng + 1 := by
  have hfin : ∀ s2 : CacheSimulator, s2.rng = s.rng →
      (doWrite gen s2 tid addr).2.caches tid addr = some (gen s.rng) ∧
      (doWrite gen s2 tid addr).2.shared_memory addr = some (gen s.rng) ∧
      (doWrite gen s2 tid addr).2.rng = s.rng + 1 := by
    intro s2 hrng
    refine ⟨?_, ?_, ?_⟩
    · rw [doWrite_caches, hrng]
      simp
    · rw [doWrite_shared, hrng]
      simp
    · rw [doWrite_rng, hrng]
  rcases hmode with hp | hp
  · obtain ⟨s2, he, hrng⟩ := mesiBody_write_shape gen (bumpAccess s) tid addr
    have hrng' : s2.rng = s.rng := by rw [hrng, bumpAccess_rng]
    have hv : (doWrite gen s2 tid addr).1 = gen s.rng := by
      rw [doWrite_fst, hrng']
    refine ⟨(doWrite gen s2 tid addr).2, ?_, (hfin s2 hrng').1, (hfin s2 hrng').2.1,
      (hfin s2 hrng').2.2⟩
    rw [access_memory_mesi gen s tid addr "write" hp hreg (hsreg hp), he, ← hv]
  · obtain ⟨s2, he, hrng⟩ := noCohBody_write_shape gen (bumpAccess s) tid addr
    have hrng' : s2.rng = s.rng := by rw [hrng, bumpAccess_rng]
    have hv : (doWrite gen s2 tid addr).1 = gen s.rng := by
      rw [doWrite_fst, hrng']
    refine ⟨(doWrite gen s2 tid addr).2, ?_, (hfin s2 hrng').1, (hfin s2 hrng').2.1,
      (hfin s2 hrng').2.2⟩
    rw [access_memory_none_mode gen s tid addr "write" hp hreg, he, ← hv]

/-- Witness for C7: core 1's write of address 5 on the fresh two-core engine
draws `wGen 0`, stores it in core 1's cache and the shared store. -/
theorem claim_C7_witness :
    ∃ s', access_memory wGen engine01 1 5 "write" = some (wGen engine01.rng, s') ∧
      s'.caches 1 5 = some (wGen engine01.rng) ∧
      s'.shared_memory 5 = some (wGen engine01.rng) ∧
      s'.rng = engine01.rng + 1 :=
  claim_C7_write_through wGen engine01 1 5 (Or.inl rfl) (by decide) (fun _ => by decide)

/-! ### C8: the three metrics counters never decrease -/

theorem mesiBody_counters_mono (gen : Nat → Nat) (s : CacheSimulator) (tid addr : Nat)
    (ty : String) :
    s.memory_accesses ≤ (mesiBody gen s tid addr ty).2.memory_accesses ∧
    s.cache_misses ≤ (mesiBody gen s tid addr ty).2.cache_misses ∧
    s.coherence_messages ≤ (mesiBody gen s tid addr ty).2.coherence_messages := by
  by_cases hty : ty = "read"
  · subst hty
    by_cases hmiss : (s.caches tid addr).isNone ∨ stateOf s tid addr = MState.I
    · rw [mesiBody_miss_read gen s tid addr hmiss]
      refine ⟨le_of_eq ?_, ?_, ?_⟩
      · rfl
      · show s.cache_misses ≤ (mesiMiss (materialize s tid addr) tid addr "read").cache_misses
        simp
      · show s.coherence_messages ≤
          (mesiMiss (materialize s tid addr) tid addr "read").coherence_messages
        rw [mesiMiss_msgs, materialize_msgs]
        exact Nat.le_add_right _ _
    · rw [mesiBody_hit_read gen s tid addr hmiss]
      exact ⟨le_refl _, le_refl _, le_refl _⟩
  · by_cases hmiss : (s.caches tid addr).isNone ∨ stateOf s tid addr = MState.I
    · by_cases hS : stateOf s tid addr = MState.S
      · rw [mesiBody_miss_write_S gen s tid addr ty hty hmiss hS]
        refine ⟨le_of_eq ?_, ?_, ?_⟩
        · rfl
        · show s.cache_misses ≤ (doWrite gen (mesiUpgrade
            (mesiMiss (materialize s tid addr) tid addr ty) tid addr) tid addr).2.cache_misses
          simp
        · show s.coherence_messages ≤ (doWrite gen (mesiUpgrade
            (mesiMiss (materialize s tid addr) tid addr ty) tid addr)
              tid addr).2.coherence_messages
          rw [doWrite_msgs, mesiUpgrade_msgs, mesiMiss_msgs, materialize_msgs]
          exact le_trans (Nat.le_add_right _ _) (Nat.le_succ _)
      · rw [mesiBody_miss_write gen s tid addr ty hty hmiss hS]
        refine ⟨le_of_eq ?_, ?_, ?_⟩
        · rfl
        · show s.cache_misses ≤ (doWrite gen
            (mesiMiss (materialize s tid addr) tid addr ty) tid addr).2.cache_misses
          simp
        · show s.coherence_messages ≤ (doWrite gen
            (mesiMiss (materialize s tid addr) tid addr ty) tid addr).2.coherence_messages
          rw [doWrite_msgs, mesiMiss_msgs, materialize_msgs]
          exact Nat.le_add_right _ _
    · by_cases hS : stateOf s tid addr = MState.S
      · rw [mesiBody_hit_write_S gen s tid addr ty hty hmiss hS]
        refine ⟨le_of_eq ?_, le_of_eq ?_, ?_⟩
        · rfl
        · rfl
        · show s.coherence_messages ≤ (doWrite gen
            (mesiUpgrade (materialize s tid addr) tid addr) tid addr).2.coherence_messages
          rw [doWrite_msgs, mesiUpgrade_msgs, materialize_msgs]
          exact Nat.le_succ _
      · rw [mesiBody_hit_write_own gen s tid addr ty hty hmiss hS]
        exact ⟨le_refl _, le_refl _, le_refl _⟩

theorem noCohBody_counters_mono (gen : Nat → Nat) (s : CacheSimulator) (tid addr : Nat)
    (ty : String) :
    s.memory_accesses ≤ (noCohBody gen s tid addr ty).2.memory_accesses ∧
    s.cache_misses ≤ (noCohBody gen s tid addr ty).2.cache_misses ∧
    s.coherence_messages ≤ (noCohBody gen s tid addr ty).2.coherence_messages := by
  simp only [noCohBody]
  split_ifs <;> exact ⟨by simp, by simp, by simp⟩

theorem applyOp_counters_mono (gen : Nat → Nat) (s s1 : CacheSimulator) (op : SimOp)
    (hop : applyOp gen s op = some s1) :
    s.memory_accesses ≤ s1.memory_accesses ∧ s.cache_misses ≤ s1.cache_misses ∧
      s.coherence_messages ≤ s1.coherence_messages := by
  cases op with
  | reg tid =>
    simp only [applyOp] at hop
    injection hop with hh
    rw [← hh]
    exact ⟨le_refl _, le_refl _, le_refl _⟩
  | acc tid addr ty =>
    simp only [applyOp] at hop
    cases hacc : access_memory gen s tid addr ty with
    | none =>
      rw [hacc] at hop
      cases hop
    | some p =>
      rw [hacc] at hop
      injection hop with hh
      rw [← hh]
      simp only [access_memory] at hacc
      by_cases hp : (bumpAccess s).protocol = "none"
      · rw [if_pos hp] at hacc
        unfold access_without_coherence at hacc
        by_cases h1 : tid ∈ (bumpAccess s).cacheDom
        · rw [if_pos h1] at hacc
          injection hacc with hpp
          rw [← hpp]
          have := noCohBody_counters_mono gen (bumpAccess s) tid addr ty
          refine ⟨le_trans (Nat.le_succ _) this.1, this.2.1, this.2.2⟩
        · rw [if_neg h1] at hacc
          cases hacc
      · rw [if_neg hp] at hacc
        unfold access_with_mesi at hacc
        by_cases h1 : tid ∈ (bumpAccess s).cacheDom
        · rw [if_pos h1] at hacc
          by_cases h2 : tid ∈ (bumpAccess s).stateDom
          · rw [if_pos h2] at hacc
            injection hacc with hpp
            rw [← hpp]
            have := mesiBody_counters_mono gen (bumpAccess s) tid addr ty
            refine ⟨le_trans (Nat.le_succ _) this.1, this.2.1, this.2.2⟩
          · rw [if_neg h2] at hacc
            cases hacc
        · rw [if_neg h1] at hacc
          cases hacc

/-- C8: for one engine instance in either mode, the three metrics counters
(memory accesses, cache misses, coherence messages) are monotonically
non-decreasing across any sequence of operations: whenever a run of calls
completes, each counter is at least its value before the run (and hence
before and after every individual call of the run). -/
theorem claim_C8_counters_monotone (gen : Nat → Nat) (s : CacheSimulator)
    (ops : List SimOp) (s' : CacheSimulator) (h : runOps gen s ops = some s') :
    s.memory_accesses ≤ s'.memory_accesses ∧ s.cache_misses ≤ s'.cache_misses ∧
      s.coherence_messages ≤ s'.coherence_messages := by
  induction ops generalizing s with
  | nil =>
    simp only [runOps] at h
    injection h with hh
    rw [← hh]
    exact ⟨le_refl _, le_refl _, le_refl _⟩
  | cons op ops ih =>
    rw [runOps] at h
    cases hop : applyOp gen s op with
    | none =>
      rw [hop] at h
      cases h
    | some s1 =>
      rw [hop] at h
      have h1 := applyOp_counters_mono gen s s1 op hop
      have h2 := ih s1 h
      exact ⟨le_trans h1.1 h2.1, le_trans h1.2.1 h2.2.1, le_trans h1.2.2 h2.2.2⟩

/-- Witness for C8: across the concrete run `wOps1` the counters only grow. -/
theorem claim_C8_witness :
    (CacheSimulator.new "MESI").memory_accesses ≤ wRun1.memory_accesses ∧
    (CacheSimulator.new "MESI").cache_misses ≤ wRun1.cache_misses ∧
    (CacheSimulator.new "MESI").coherence_messages ≤ wRun1.coherence_messages :=
  claim_C8_counters_monotone wGen (CacheSimulator.new "MESI") wOps1 wRun1 rfl

/-! ### C9: which malformed accesses actually fail fast -/

theorem mesiMiss_ty_irrel (s : CacheSimulator) (tid addr : Nat) (ty : String)
    (hty : ty ≠ "read") :
    mesiMiss s tid addr ty = mesiMiss s tid addr "write" := by
  have hw : ("write" : String) ≠ "read" := by decide
  simp only [mesiMiss]
  rw [if_neg hty, if_neg hty, if_neg hw, if_neg hw]

theorem mesiBody_ty_irrel (gen : Nat → Nat) (s : CacheSimulator) (tid addr : Nat)
    (ty : String) (hty : ty ≠ "read") :
    mesiBody gen s tid addr ty = mesiBody gen s tid addr "write" := by
  have hw : ("write" : String) ≠ "read" := by decide
  simp only [mesiBody]
  rw [if_neg hty, if_neg hw, mesiMiss_ty_irrel (materialize s tid addr) tid addr ty hty]

theorem noCohBody_ty_irrel (gen : Nat → Nat) (s : CacheSimulator) (tid addr : Nat)
    (ty : String) (hty : ty ≠ "read") :
    noCohBody gen s tid addr ty = noCohBody gen s tid addr "write" := by
  have hw : ("write" : String) ≠ "read" := by decide
  simp only [noCohBody]
  rw [if_neg hty, if_neg hw]

/-- MESI engine with only core 0 registered. -/
def c9State : CacheSimulator := init_thread_cache (CacheSimulator.new "MESI") 0

/-- C9, counterexample: an access kind outside {Read, Write} does not fail
fast; with core 0 registered, `access_memory` with kind `"fetch"` silently
proceeds and produces a value. -/
theorem claim_C9_counterexample :
    (access_memory wGen c9State 0 5 "fetch").isSome = true := by decide

/-- C9, amended: an access with an unregistered core id fails fast (raises),
and so does any access on an engine whose mode is not `none` when the core
has no coherence table — which is exactly what an engine constructed with a
mode outside {coherent, none} produces, since `init_thread_cache` creates
coherence tables only in MESI mode; but an access kind outside {Read, Write}
is not rejected: it silently behaves exactly as a Write and produces a
value. -/
theorem claim_C9_failfast_scope (gen : Nat → Nat) (s : CacheSimulator)
    (tid addr : Nat) (ty : String) :
    ((tid ∉ s.cacheDom ∨ (s.protocol ≠ "none" ∧ tid ∉ s.stateDom)) →
      access_memory gen s tid addr ty = none) ∧
    (ty ≠ "read" →
      access_memory gen s tid addr ty = access_memory gen s tid addr "write") := by
  constructor
  · intro h
    simp only [access_memory]
    by_cases hp : (bumpAccess s).protocol = "none"
    · rw [if_pos hp]
      unfold access_without_coherence
      rcases h with h | h
      · rw [if_neg (by rw [bumpAccess_cacheDom]; exact h)]
      · exact absurd (by rw [← bumpAccess_protocol]; exact hp) h.1
    · rw [if_neg hp]
      unfold access_with_mesi
      rcases h with h | h
      · rw [if_neg (by rw [bumpAccess_cacheDom]; exact h)]
      · by_cases h1 : tid ∈ (bumpAccess s).cacheDom
        · rw [if_pos h1, if_neg (by rw [bumpAccess_stateDom]; exact h.2)]
        · rw [if_neg h1]
  · intro hty
    simp only [access_memory]
    unfold access_without_coherence access_with_mesi
    rw [noCohBody_ty_irrel gen (bumpAccess s) tid addr ty hty,
      mesiBody_ty_irrel gen (bumpAccess s) tid addr ty hty]

/-- Witness for the amended C9: an unregistered core's access on a fresh
engine raises, and kind `"fetch"` behaves exactly as `"write"`. -/
theorem claim_C9_witness :
    access_memory wGen (CacheSimulator.new "MESI") 3 5 "read" = none ∧
    access_memory wGen c9State 0 5 "fetch" = access_memory wGen c9State 0 5 "write" :=
  ⟨(claim_C9_failfast_scope wGen (CacheSimulator.new "MESI") 3 5 "read").1
      (Or.inl (by decide)),
   (claim_C9_failfast_scope wGen c9State 0 5 "fetch").2 (by decide)⟩

/-! ### C10: the requester ends every access valid and caching the result -/

theorem mesiBody_post (gen : Nat → Nat) (s : CacheSimulator) (tid addr : Nat)
    (ty : String) :
    stateOf (mesiBody gen s tid addr ty).2 tid addr ≠ MState.I ∧
    (mesiBody gen s tid addr ty).2.caches tid addr = some (mesiBody gen s tid addr ty).1 := by
  by_cases hty : ty = "read"
  · subst hty
    by_cases hmiss : (s.caches tid addr).isNone ∨ stateOf s tid addr = MState.I
    · rw [mesiBody_miss_read gen s tid addr hmiss]
      constructor
      · show stateOf (mesiMiss (materialize s tid addr) tid addr "read") tid addr ≠ MState.I
        by_cases hohc : otherHasCopy s.cacheDom s.caches tid addr = true
        · rw [stateOf_mesiMiss_read_ohc (materialize s tid addr) tid addr tid addr hohc]
          simp
        · rw [stateOf_mesiMiss_read_noohc (materialize s tid addr) tid addr tid addr
            (by simpa using hohc)]
          simp
      · show (mesiMiss (materialize s tid addr) tid addr "read").caches tid addr =
          some (((mesiMiss (materialize s tid addr) tid addr "read").caches tid addr).getD 0)
        rw [mesiMiss_caches]
        simp
    · rw [mesiBody_hit_read gen s tid addr hmiss]
      push_neg at hmiss
      constructor
      · show stateOf (materialize s tid addr) tid addr ≠ MState.I
        rw [stateOf_materialize]
        exact hmiss.2
      · show (materialize s tid addr).caches tid addr = some ((s.caches tid addr).getD 0)
        rw [materialize_caches]
        cases hc : s.caches tid addr with
        | none =>
          rw [hc] at hmiss
          exact absurd rfl hmiss.1
        | some v => rfl
  · by_cases hmiss : (s.caches tid addr).isNone ∨ stateOf s tid addr = MState.I
    · by_cases hS : stateOf s tid addr = MState.S
      · rw [mesiBody_miss_write_S gen s tid addr ty hty hmiss hS]
        constructor
        · rw [stateOf_doWrite, stateOf_mesiUpgrade]
          simp
        · rw [doWrite_caches, doWrite_fst]
          simp
      · rw [mesiBody_miss_write gen s tid addr ty hty hmiss hS]
        constructor
        · rw [stateOf_doWrite,
            stateOf_mesiMiss_write (materialize s tid addr) tid addr tid addr ty hty]
          simp
        · rw [doWrite_caches, doWrite_fst]
          simp
    · by_cases hS : stateOf s tid addr = MState.S
      · rw [mesiBody_hit_write_S gen s tid addr ty hty hmiss hS]
        constructor
        · rw [stateOf_doWrite, stateOf_mesiUpgrade]
          simp
        · rw [doWrite_caches, doWrite_fst]
          simp
      · rw [mesiBody_hit_write_own gen s tid addr ty hty hmiss hS]
        push_neg at hmiss
        constructor
        · rw [stateOf_doWrite, stateOf_materialize]
          exact hmiss.2
        · rw [doWrite_caches, doWrite_fst]
          simp

/-- C10: in coherent mode, immediately after any access call by a registered
core returns, the requesting core's coherence state for the accessed address
is not Invalid, and the requesting core's cache holds exactly the value the
call returned. -/
theorem claim_C10_requester_valid (gen : Nat → Nat) (s : CacheSimulator)
    (tid addr : Nat) (ty : String)
    (hp : s.protocol = "MESI") (h1 : tid ∈ s.cacheDom) (h2 : tid ∈ s.stateDom) :
    ∃ v s', access_memory gen s tid addr ty = some (v, s') ∧
      stateOf s' tid addr ≠ MState.I ∧ s'.caches tid addr = some v := by
  rw [access_memory_mesi gen s tid addr ty hp h1 h2]
  exact ⟨(mesiBody gen (bumpAccess s) tid addr ty).1,
    (mesiBody gen (bumpAccess s) tid addr ty).2, rfl,
    (mesiBody_post gen (bumpAccess s) tid addr ty).1,
    (mesiBody_post gen (bumpAccess s) tid addr ty).2⟩

/-- Witness for C10: core 0's first read of address 5 on the fresh two-core
engine leaves core 0 with a non-Invalid state and the returned value
cached. -/
theorem claim_C10_witness :
    ∃ v s', access_memory wGen engine01 0 5 "read" = some (v, s') ∧
      stateOf s' 0 5 ≠ MState.I ∧ s'.caches 0 5 = some v :=
  claim_C10_requester_valid wGen engine01 0 5 "read" rfl (by decide) (by decide)
